import Mathlib

set_option maxHeartbeats 1000000

/-!
Shallow embedding of src/smpte-tc-server.py: the SMPTE timecode value type
(`SMPTETimecode` with `from_string`, `to_string`, `increment`), the session
registry operations of `SMPTETimecodeServer` (`create_session`, `join_session`,
`leave_session`, `start_timecode`, `stop_timecode`, `reset_timecode`,
`handle_client_disconnect`) and the fan-out broadcast
(`send_to_client`, `broadcast_to_session`).

Modelling conventions:
- Python strings are `List Char`; Python's unbounded `int` is `Int`.
- Python dicts are association lists with the dict operations `lookupK`,
  `insertK`, `updateK` (in-place mutation of a stored object), `eraseK`.
- The fresh ids produced by `uuid.uuid4()` are supplied by a counter `nextId`
  for sessions, and by freshness hypotheses on the `connect` step for clients.
- A session's `asyncio.Task` handle is modelled by a `task : Bool` flag
  (whether a clock-driver task handle is currently set).
- A transport write that raises inside `send_to_client` is modelled by a
  per-client `failing` flag; successfully written messages accumulate in the
  client's `outbox`.
-/

/-- Characters removed by Python's bare `str.strip()` (ASCII whitespace:
space, tab, newline, carriage return, vertical tab, form feed). -/
def pyIsSpace (c : Char) : Bool :=
  c == ' ' || c == '\t' || c == '\n' || c == '\r' || c == Char.ofNat 11 || c == Char.ofNat 12

/-- ASCII decimal digit test, as accepted by Python's `int`. -/
def pyIsDigit (c : Char) : Bool :=
  decide (48 ≤ c.toNat ∧ c.toNat ≤ 57)

/-- Python `str.strip()`: drop leading and trailing whitespace. -/
def pyStrip (s : List Char) : List Char :=
  ((s.dropWhile pyIsSpace).reverse.dropWhile pyIsSpace).reverse

/-- Digit-string scanner for `pyDigits`.  `prevDigit` records whether the
previous character was a digit: an underscore is legal only directly after a
digit and must be followed by another digit, and the string must end in a
digit. -/
def pyDigitsAux : Bool → Nat → List Char → Option Nat
  | prevDigit, acc, [] => if prevDigit then some acc else none
  | prevDigit, acc, c :: cs =>
    if pyIsDigit c then pyDigitsAux true (10 * acc + (c.toNat - 48)) cs
    else if c = '_' then (if prevDigit then pyDigitsAux false acc cs else none)
    else none

/-- The digit part of Python `int(...)`: a nonempty decimal digit string with
optional single underscores between digits. -/
def pyDigits (s : List Char) : Option Nat := pyDigitsAux false 0 s

/-- Python `int(str)` on a decimal string: optional surrounding whitespace and
an optional single sign, then digits; a `ValueError` is `none`. -/
def pyInt (s : List Char) : Option Int :=
  match pyStrip s with
  | [] => none
  | c :: rest =>
    if c = '-' then (pyDigits rest).map (fun n => -(n : Int))
    else if c = '+' then (pyDigits rest).map (fun n => (n : Int))
    else (pyDigits (c :: rest)).map (fun n => (n : Int))

/-- Python `str.split(sep)` for a one-character separator: splits at every
occurrence and keeps empty chunks (so the result is never the empty list). -/
def splitOnChar (sep : Char) : List Char → List (List Char)
  | [] => [[]]
  | c :: rest =>
    if c = sep then [] :: splitOnChar sep rest
    else
      match splitOnChar sep rest with
      | [] => [[c]]
      | g :: gs => (c :: g) :: gs

/-- ASCII digit character for a digit value below ten. -/
def digitChar (d : Nat) : Char := Char.ofNat (48 + d)

/-- Fuel-driven decimal rendering of a natural number; any fuel at least the
number of digits gives the representation, most significant digit first. -/
def natReprAux : Nat → Nat → List Char
  | 0, _ => []
  | fuel + 1, n =>
    if n < 10 then [digitChar n]
    else natReprAux fuel (n / 10) ++ [digitChar (n % 10)]

/-- Decimal representation of a natural number. -/
def natRepr (n : Nat) : List Char := natReprAux (n + 1) n

/-- Decimal representation of a Python integer, with a leading minus sign when
negative. -/
def intRepr (x : Int) : List Char :=
  if x < 0 then '-' :: natRepr x.natAbs else natRepr x.toNat

/-- Python format `02d` applied to an integer: the decimal form, left-padded
with a zero when shorter than two characters (a sign counts toward the width). -/
def pad2 (x : Int) : List Char :=
  if (intRepr x).length < 2 then '0' :: intRepr x else intRepr x

/-- Model of class `SMPTETimecode` (src/smpte-tc-server.py line 18): hours,
minutes, seconds, frames.  Python ints are unbounded and, through
`from_string`, may be negative or out of range. -/
structure SMPTETimecode where
  hours : Int
  minutes : Int
  seconds : Int
  frames : Int
  deriving DecidableEq, Repr

/-- Model of `SMPTETimecode.from_string` (line 27): split the string on `:`,
require exactly four parts, convert each with `int`; a `ValueError` from a
wrong part count or a failed conversion is `none`. -/
def from_string (str : List Char) : Option SMPTETimecode :=
  match splitOnChar ':' str with
  | [p0, p1, p2, p3] =>
    match pyInt p0, pyInt p1, pyInt p2, pyInt p3 with
    | some h, some m, some s, some f => some ⟨h, m, s, f⟩
    | _, _, _, _ => none
  | _ => none

/-- Model of `SMPTETimecode.to_string` (line 41): four `02d`-formatted fields
joined by colons. -/
def to_string (tc : SMPTETimecode) : List Char :=
  pad2 tc.hours ++ ':' :: (pad2 tc.minutes ++ ':' :: (pad2 tc.seconds ++ ':' :: pad2 tc.frames))

/-- Model of `SMPTETimecode.increment` (line 45): advance one frame; at
`max_frames` reset frames and advance seconds, cascading 60 seconds to a
minute, 60 minutes to an hour, and 24 hours back to zero. -/
def increment (max_frames : Int) (tc : SMPTETimecode) : SMPTETimecode :=
  let f := tc.frames + 1
  if f ≥ max_frames then
    let s := tc.seconds + 1
    if s ≥ 60 then
      let m := tc.minutes + 1
      if m ≥ 60 then
        let h := tc.hours + 1
        if h ≥ 24 then ⟨0, 0, 0, 0⟩ else ⟨h, 0, 0, 0⟩
      else ⟨tc.hours, m, 0, 0⟩
    else ⟨tc.hours, tc.minutes, s, 0⟩
  else ⟨tc.hours, tc.minutes, tc.seconds, f⟩

/-- Model of `SUPPORTED_FRAMERATES` (line 151) combined with
`TimecodeSession.get_max_frames` (line 81), which is `int(float(framerate))`:
the truncated frame count for each supported framerate string (23.976 gives 23,
29.97 gives 29, 59.94 gives 59), and `none` for an unsupported string. -/
def framerateMaxFrames (fr : String) : Option Nat :=
  if fr = "23.976" then some 23
  else if fr = "24" then some 24
  else if fr = "29.97" then some 29
  else if fr = "30" then some 30
  else if fr = "50" then some 50
  else if fr = "59.94" then some 59
  else if fr = "60" then some 60
  else none

/-- Model of class `TimecodeSession` (line 65), keeping the fields the registry
operations read or write.  `task` records whether the asyncio clock-task handle
is set; `created_at`, `interval` and `server_ref` carry no registry-visible
state and are omitted. -/
structure TimecodeSession where
  framerate : String
  timecode : SMPTETimecode
  running : Bool
  clients : List Nat
  created_by : Nat
  task : Bool
  deriving DecidableEq, Repr

/-- Model of class `ClientConnection` (line 137).  `failing` models whether a
transport write to this client raises (taking the except branch of
`send_to_client`); `outbox` records the messages successfully written to this
client's stream. -/
structure ClientConnection where
  session_id : Option Nat
  connected : Bool
  failing : Bool
  outbox : List String
  deriving DecidableEq, Repr

/-- Python dict lookup: the binding of key `k` (keys are unique). -/
def lookupK {α : Type} (k : Nat) : List (Nat × α) → Option α
  | [] => none
  | (k2, v) :: rest => if k2 = k then some v else lookupK k rest

/-- Python dict deletion `del d[k]`. -/
def eraseK {α : Type} (k : Nat) (l : List (Nat × α)) : List (Nat × α) :=
  l.filter (fun p => p.1 != k)

/-- In-place mutation of the object stored at key `k` (Python mutates the
stored object through a reference). -/
def updateK {α : Type} (k : Nat) (f : α → α) (l : List (Nat × α)) : List (Nat × α) :=
  l.map (fun p => if p.1 = k then (p.1, f p.2) else p)

/-- Python dict write `d[k] = v`: replace an existing binding or append. -/
def insertK {α : Type} (k : Nat) (v : α) (l : List (Nat × α)) : List (Nat × α) :=
  if (lookupK k l).isSome then updateK k (fun _ => v) l else l ++ [(k, v)]

/-- Python `set.add` on a session's client-id set. -/
def addClient (cid : Nat) (l : List Nat) : List Nat :=
  if cid ∈ l then l else l ++ [cid]

/-- Python `set.discard` on a session's client-id set. -/
def removeClient (cid : Nat) (l : List Nat) : List Nat :=
  l.filter (fun x => x != cid)

/-- The registry state of `SMPTETimecodeServer` (line 148): the sessions dict,
the clients dict, and the counter supplying fresh session ids (standing in for
`uuid.uuid4()`). -/
structure ServerState where
  sessions : List (Nat × TimecodeSession)
  clients : List (Nat × ClientConnection)
  nextId : Nat
  deriving DecidableEq, Repr

/-- A freshly constructed server: empty sessions and clients dicts. -/
def initialState : ServerState := ⟨[], [], 0⟩

/-- The reply a registry operation produces: either the direct message to the
requesting client, or the broadcast a successful start/stop/reset triggers.
Error constructors name the distinct error messages the handlers send (for
example `errAlreadyRunning` is the message 'Timecode already running');
`internalError` models a Python exception escaping a handler, which
`handle_client_message` catches and reports as 'Internal server error'. -/
inductive Resp where
  | errUnsupportedFramerate
  | errMalformedTimecode
  | errSessionNotFound
  | errNotInSession
  | errAlreadyRunning
  | errNotRunning
  | internalError
  | sessionCreated (sid : Nat) (framerate : String) (tc : SMPTETimecode)
  | sessionJoined (sid : Nat) (framerate : String) (tc : SMPTETimecode) (running : Bool)
  | timecodeStarted (tc : SMPTETimecode)
  | timecodeStopped (tc : SMPTETimecode)
  | timecodeReset (tc : SMPTETimecode)
  deriving DecidableEq, Repr

/-- Model of `SMPTETimecodeServer.handle_client` registering a new connection
(line 213): a fresh client id is bound to a connection with no session.
`failing` is the transport-environment choice of whether later writes to this
client raise. -/
def connectClient (cid : Nat) (failing : Bool) (s : ServerState) : ServerState :=
  { s with clients := insertK cid ⟨none, true, failing, []⟩ s.clients }

/-- Model of `SMPTETimecodeServer.create_session` (line 282): check the
framerate against `SUPPORTED_FRAMERATES`, parse the initial timecode, then
register a fresh session with the requester as sole subscriber and set the
requester's `session_id` when the requester is a registered client. -/
def create_session (cid : Nat) (fr : String) (tcs : List Char) (s : ServerState) :
    Resp × ServerState :=
  if (framerateMaxFrames fr).isNone then (.errUnsupportedFramerate, s)
  else
    match from_string tcs with
    | none => (.errMalformedTimecode, s)
    | some tc =>
      let sid := s.nextId
      let sess : TimecodeSession :=
        { framerate := fr, timecode := tc, running := false,
          clients := [cid], created_by := cid, task := false }
      let s2 : ServerState :=
        { s with sessions := insertK sid sess s.sessions, nextId := s.nextId + 1 }
      let s3 :=
        if (lookupK cid s2.clients).isSome then
          { s2 with clients := updateK cid (fun c => { c with session_id := some sid }) s2.clients }
        else s2
      (.sessionCreated sid fr tc, s3)

/-- Model of `SMPTETimecodeServer.leave_session` (line 353): a no-op when the
requester is unknown or in no session; otherwise remove the requester from its
session's client set, delete the session when the set becomes empty (stopping
its clock first), and clear the requester's `session_id`. -/
def leave_session (cid : Nat) (s : ServerState) : ServerState :=
  match lookupK cid s.clients with
  | none => s
  | some c =>
    match c.session_id with
    | none => s
    | some sid =>
      let s2 :=
        match lookupK sid s.sessions with
        | none => s
        | some sess =>
          if removeClient cid sess.clients = [] then
            { s with sessions := eraseK sid s.sessions }
          else
            { s with sessions :=
                updateK sid (fun se => { se with clients := removeClient cid se.clients }) s.sessions }
      { s2 with clients := updateK cid (fun c2 => { c2 with session_id := none }) s2.clients }

/-- Model of `SMPTETimecodeServer.join_session` (line 322): unknown session ids
are rejected; otherwise the requester first leaves its current session
implicitly, then `self.sessions[session_id]` is read again — if the implicit
leave deleted the target session this lookup raises `KeyError`
(`internalError`); otherwise the requester is added to the session's client set
and its `session_id` is set. -/
def join_session (cid sid : Nat) (s : ServerState) : Resp × ServerState :=
  if (lookupK sid s.sessions).isNone then (.errSessionNotFound, s)
  else
    let s1 := leave_session cid s
    match lookupK sid s1.sessions with
    | none => (.internalError, s1)
    | some sess =>
      let s2 : ServerState :=
        { s1 with sessions :=
            updateK sid (fun se => { se with clients := addClient cid se.clients }) s1.sessions }
      let s3 :=
        if (lookupK cid s2.clients).isSome then
          { s2 with clients := updateK cid (fun c => { c with session_id := some sid }) s2.clients }
        else s2
      (.sessionJoined sid sess.framerate sess.timecode sess.running, s3)

/-- Model of `SMPTETimecodeServer.start_timecode` (line 371) together with
`TimecodeSession.start_timecode` (line 85): reject a requester with no session,
a vanished session, and an already-running session; otherwise set `running` and
create the clock task (the inner guard of `TimecodeSession.start_timecode`
refuses when a task handle is already set), then broadcast `timecode_started`. -/
def start_timecode (cid : Nat) (s : ServerState) : Resp × ServerState :=
  match lookupK cid s.clients with
  | none => (.errNotInSession, s)
  | some c =>
    match c.session_id with
    | none => (.errNotInSession, s)
    | some sid =>
      match lookupK sid s.sessions with
      | none => (.errSessionNotFound, s)
      | some sess =>
        if sess.running then (.errAlreadyRunning, s)
        else
          let go : TimecodeSession → TimecodeSession := fun se =>
            if se.running || se.task then se
            else { se with running := true, task := true }
          let s2 : ServerState := { s with sessions := updateK sid go s.sessions }
          (.timecodeStarted sess.timecode, s2)

/-- Model of `SMPTETimecodeServer.stop_timecode` (line 405) together with
`TimecodeSession.stop_timecode` (line 94): reject a requester with no session,
a vanished session, and a stopped session; otherwise clear `running`, cancel
and clear the task (the inner guard refuses when no task handle is set), then
broadcast `timecode_stopped`. -/
def stop_timecode (cid : Nat) (s : ServerState) : Resp × ServerState :=
  match lookupK cid s.clients with
  | none => (.errNotInSession, s)
  | some c =>
    match c.session_id with
    | none => (.errNotInSession, s)
    | some sid =>
      match lookupK sid s.sessions with
      | none => (.errSessionNotFound, s)
      | some sess =>
        if !sess.running then (.errNotRunning, s)
        else
          let go : TimecodeSession → TimecodeSession := fun se =>
            if !se.running || !se.task then se
            else { se with running := false, task := false }
          let s2 : ServerState := { s with sessions := updateK sid go s.sessions }
          (.timecodeStopped sess.timecode, s2)

/-- Model of `SMPTETimecodeServer.reset_timecode` (line 439): same membership
preconditions; parse the replacement timecode and install it wholesale, then
broadcast `timecode_reset`. -/
def reset_timecode (cid : Nat) (tcs : List Char) (s : ServerState) : Resp × ServerState :=
  match lookupK cid s.clients with
  | none => (.errNotInSession, s)
  | some c =>
    match c.session_id with
    | none => (.errNotInSession, s)
    | some sid =>
      match lookupK sid s.sessions with
      | none => (.errSessionNotFound, s)
      | some _ =>
        match from_string tcs with
        | none => (.errMalformedTimecode, s)
        | some tc =>
          (.timecodeReset tc,
           { s with sessions := updateK sid (fun se => { se with timecode := tc }) s.sessions })

/-- Model of `SMPTETimecodeServer.handle_client_disconnect` (line 497): an
implicit leave, then the connection record is closed and deleted. -/
def handle_client_disconnect (cid : Nat) (s : ServerState) : ServerState :=
  let s1 := leave_session cid s
  match lookupK cid s1.clients with
  | none => s1
  | some _ => { s1 with clients := eraseK cid s1.clients }

/-- Model of `SMPTETimecodeServer.send_to_client` (line 476): a no-op for an
unknown or closed connection; a raising write (the `failing` flag) is caught
and triggers that client's disconnect path; a successful write appends to the
client's outbox. -/
def send_to_client (cid : Nat) (msg : String) (s : ServerState) : ServerState :=
  match lookupK cid s.clients with
  | none => s
  | some c =>
    if c.connected then
      if c.failing then handle_client_disconnect cid s
      else { s with clients := updateK cid (fun c2 => { c2 with outbox := c2.outbox ++ [msg] }) s.clients }
    else s

/-- Delivery of one message to each client id in a snapshot list, in order. -/
def deliverAll (l : List Nat) (msg : String) (s : ServerState) : ServerState :=
  l.foldl (fun st cid => send_to_client cid msg st) s

/-- Model of `SMPTETimecodeServer.broadcast_to_session` (line 488): a no-op for
an unknown session; otherwise deliver to every client in the snapshot
`list(session.clients)` taken at call time. -/
def broadcast_to_session (sid : Nat) (msg : String) (s : ServerState) : ServerState :=
  match lookupK sid s.sessions with
  | none => s
  | some sess => deliverAll sess.clients msg s

/-- One observable transition of the server: a client connecting, any of the
six message handlers invoked by `handle_client_message` on behalf of a
connected client, or a disconnect. -/
inductive Step : ServerState → ServerState → Prop
  | connect (cid : Nat) (fl : Bool) (s : ServerState)
      (h : lookupK cid s.clients = none) : Step s (connectClient cid fl s)
  | create (cid : Nat) (fr : String) (tcs : List Char) (s : ServerState)
      (h : (lookupK cid s.clients).isSome = true) : Step s (create_session cid fr tcs s).2
  | join (cid sid : Nat) (s : ServerState)
      (h : (lookupK cid s.clients).isSome = true) : Step s (join_session cid sid s).2
  | leave (cid : Nat) (s : ServerState)
      (h : (lookupK cid s.clients).isSome = true) : Step s (leave_session cid s)
  | start (cid : Nat) (s : ServerState)
      (h : (lookupK cid s.clients).isSome = true) : Step s (start_timecode cid s).2
  | stop (cid : Nat) (s : ServerState)
      (h : (lookupK cid s.clients).isSome = true) : Step s (stop_timecode cid s).2
  | reset (cid : Nat) (tcs : List Char) (s : ServerState)
      (h : (lookupK cid s.clients).isSome = true) : Step s (reset_timecode cid tcs s).2
  | disconnect (cid : Nat) (s : ServerState)
      (h : (lookupK cid s.clients).isSome = true) : Step s (handle_client_disconnect cid s)

/-- States reachable from a freshly constructed server. -/
inductive Reachable : ServerState → Prop
  | init : Reachable initialState
  | step {s1 s2 : ServerState} : Reachable s1 → Step s1 s2 → Reachable s2

/-- Like `Step`, but `create_session` is only invoked by a registered client
that is currently in no session (the restriction under which claim C1's
invariant is provable). -/
inductive StepA : ServerState → ServerState → Prop
  | connect (cid : Nat) (fl : Bool) (s : ServerState)
      (h : lookupK cid s.clients = none) : StepA s (connectClient cid fl s)
  | create (cid : Nat) (fr : String) (tcs : List Char) (s : ServerState) (c : ClientConnection)
      (h : lookupK cid s.clients = some c) (hfree : c.session_id = none) :
      StepA s (create_session cid fr tcs s).2
  | join (cid sid : Nat) (s : ServerState)
      (h : (lookupK cid s.clients).isSome = true) : StepA s (join_session cid sid s).2
  | leave (cid : Nat) (s : ServerState)
      (h : (lookupK cid s.clients).isSome = true) : StepA s (leave_session cid s)
  | start (cid : Nat) (s : ServerState)
      (h : (lookupK cid s.clients).isSome = true) : StepA s (start_timecode cid s).2
  | stop (cid : Nat) (s : ServerState)
      (h : (lookupK cid s.clients).isSome = true) : StepA s (stop_timecode cid s).2
  | reset (cid : Nat) (tcs : List Char) (s : ServerState)
      (h : (lookupK cid s.clients).isSome = true) : StepA s (reset_timecode cid tcs s).2
  | disconnect (cid : Nat) (s : ServerState)
      (h : (lookupK cid s.clients).isSome = true) : StepA s (handle_client_disconnect cid s)

/-- States reachable when clients only create sessions while free. -/
inductive ReachableA : ServerState → Prop
  | init : ReachableA initialState
  | step {s1 s2 : ServerState} : ReachableA s1 → StepA s1 s2 → ReachableA s2

/-- Whether client `cid` is in the subscriber set of registered session `sid`. -/
def memberOf (cid sid : Nat) (s : ServerState) : Bool :=
  match lookupK sid s.sessions with
  | some sess => decide (cid ∈ sess.clients)
  | none => false

/-- Follows the spec's words for the effect of one full second of frames: the
seconds field advances by one with frames back at zero, seconds reaching 60
cascading to minutes, minutes reaching 60 cascading to hours, and hours
reaching 24 wrapping to zero. -/
def specSecondTick (tc : SMPTETimecode) : SMPTETimecode :=
  let s := tc.seconds + 1
  if s ≥ 60 then
    let m := tc.minutes + 1
    if m ≥ 60 then
      let h := tc.hours + 1
      if h ≥ 24 then ⟨0, 0, 0, 0⟩ else ⟨h, 0, 0, 0⟩
    else ⟨tc.hours, m, 0, 0⟩
  else ⟨tc.hours, tc.minutes, s, 0⟩

/-- Follows claim C6's words: the string consists of exactly four
colon-separated nonnegative integer fields, a nonnegative integer field being a
nonempty string of decimal digits. -/
def fourNonnegIntFields (s : List Char) : Bool :=
  let parts := splitOnChar ':' s
  parts.length == 4 && parts.all (fun p => !p.isEmpty && p.all pyIsDigit)

/-- Accumulator view of reading a decimal digit string left to right. -/
def valFold : Nat → List Char → Nat
  | acc, [] => acc
  | acc, c :: cs => valFold (10 * acc + (c.toNat - 48)) cs

/-- Invariant: every registered session has a nonempty subscriber set. -/
def sessionsNonempty (s : ServerState) : Prop :=
  ∀ sid sess, lookupK sid s.sessions = some sess → sess.clients ≠ []

/-- Invariant: every subscriber of a registered session is a registered client
whose `session_id` points back at that session. -/
def memberBackref (s : ServerState) : Prop :=
  ∀ sid sess, lookupK sid s.sessions = some sess →
    ∀ cid, cid ∈ sess.clients →
      ∃ c, lookupK cid s.clients = some c ∧ c.session_id = some sid

/-- Invariant: session ids at or beyond the fresh-id counter are unregistered. -/
def sessionsFresh (s : ServerState) : Prop :=
  ∀ sid, s.nextId ≤ sid → lookupK sid s.sessions = none

theorem digitChar_isDigit {d : Nat} (h : d < 10) : pyIsDigit (digitChar d) = true := by
  interval_cases d <;> decide

theorem digitChar_toNat {d : Nat} (h : d < 10) : (digitChar d).toNat = 48 + d := by
  interval_cases d <;> decide

theorem natReprAux_fuel : ∀ n f1 f2, n < f1 → n < f2 → natReprAux f1 n = natReprAux f2 n := by
  intro n
  induction n using Nat.strong_induction_on with
  | _ n ih =>
    intro f1 f2 h1 h2
    obtain ⟨g1, rfl⟩ : ∃ g, f1 = g + 1 := ⟨f1 - 1, by omega⟩
    obtain ⟨g2, rfl⟩ : ∃ g, f2 = g + 1 := ⟨f2 - 1, by omega⟩
    simp only [natReprAux]
    by_cases h10 : n < 10
    · simp [h10]
    · have hd : n / 10 < n := Nat.div_lt_self (by omega) (by omega)
      simp only [h10, if_false]
      rw [ih (n / 10) hd g1 g2 (by omega) (by omega)]

theorem natRepr_eq (n : Nat) :
    natRepr n = if n < 10 then [digitChar n] else natRepr (n / 10) ++ [digitChar (n % 10)] := by
  show natReprAux (n + 1) n = _
  simp only [natReprAux]
  by_cases h10 : n < 10
  · simp [h10]
  · simp only [h10, if_false]
    rw [natReprAux_fuel (n / 10) n (n / 10 + 1) (Nat.div_lt_self (by omega) (by omega)) (by omega)]
    rfl

theorem natRepr_all_digits (n : Nat) : ∀ c ∈ natRepr n, pyIsDigit c = true := by
  induction n using Nat.strong_induction_on with
  | _ n ih =>
    rw [natRepr_eq]
    by_cases h10 : n < 10
    · simp only [h10, if_true]
      intro c hc
      simp only [List.mem_singleton] at hc
      subst hc
      exact digitChar_isDigit h10
    · simp only [h10, if_false]
      intro c hc
      rcases List.mem_append.mp hc with h | h
      · exact ih (n / 10) (Nat.div_lt_self (by omega) (by omega)) c h
      · simp only [List.mem_singleton] at h
        subst h
        exact digitChar_isDigit (Nat.mod_lt _ (by omega))

theorem natRepr_ne_nil (n : Nat) : natRepr n ≠ [] := by
  rw [natRepr_eq]
  by_cases h10 : n < 10 <;> simp [h10]

theorem valFold_append (xs ys : List Char) (acc : Nat) :
    valFold acc (xs ++ ys) = valFold (valFold acc xs) ys := by
  induction xs generalizing acc with
  | nil => rfl
  | cons c cs ih =>
    rw [List.cons_append]
    show valFold (10 * acc + (c.toNat - 48)) (cs ++ ys) =
      valFold (valFold (10 * acc + (c.toNat - 48)) cs) ys
    exact ih (10 * acc + (c.toNat - 48))

theorem valFold_nil (acc : Nat) : valFold acc [] = acc := rfl

theorem valFold_cons (acc : Nat) (c : Char) (cs : List Char) :
    valFold acc (c :: cs) = valFold (10 * acc + (c.toNat - 48)) cs := rfl

theorem natRepr_valFold (n : Nat) :
    ∀ acc, valFold acc (natRepr n) = acc * 10 ^ (natRepr n).length + n := by
  induction n using Nat.strong_induction_on with
  | _ n ih =>
    intro acc
    rw [natRepr_eq]
    by_cases h10 : n < 10
    · rw [if_pos h10, valFold_cons, valFold_nil, digitChar_toNat h10]
      simp only [List.length_cons, List.length_nil, pow_one]
      omega
    · rw [if_neg h10, valFold_append, ih (n / 10) (Nat.div_lt_self (by omega) (by omega)),
        valFold_cons, valFold_nil, digitChar_toNat (Nat.mod_lt _ (by omega))]
      simp only [List.length_append, List.length_cons, List.length_nil]
      rw [pow_succ]
      have h48 : 48 + n % 10 - 48 = n % 10 := by omega
      have hmul : acc * ((10 : Nat) ^ (natRepr (n / 10)).length * 10) =
          10 * (acc * 10 ^ (natRepr (n / 10)).length) := by ring
      rw [h48, hmul]
      omega

theorem valFold_natRepr_zero (n : Nat) : valFold 0 (natRepr n) = n := by
  rw [natRepr_valFold]
  simp

theorem pyDigitsAux_digits : ∀ (xs : List Char) (b : Bool) (acc : Nat), xs ≠ [] →
    (∀ c ∈ xs, pyIsDigit c = true) → pyDigitsAux b acc xs = some (valFold acc xs) := by
  intro xs
  induction xs with
  | nil =>
    intro b acc h _
    exact absurd rfl h
  | cons c cs ih =>
    intro b acc _ hall
    have hc : pyIsDigit c = true := hall c (List.mem_cons_self c cs)
    rw [valFold_cons]
    simp only [pyDigitsAux, hc, if_true]
    cases cs with
    | nil => rw [valFold_nil]; rfl
    | cons d ds =>
      exact ih true _ (List.cons_ne_nil d ds) (fun x hx => hall x (List.mem_cons_of_mem c hx))

theorem pyDigits_digits {xs : List Char} (hne : xs ≠ []) (h : ∀ c ∈ xs, pyIsDigit c = true) :
    pyDigits xs = some (valFold 0 xs) :=
  pyDigitsAux_digits xs false 0 hne h

theorem digit_not_space {c : Char} (h : pyIsDigit c = true) : pyIsSpace c = false := by
  have h48 : 48 ≤ c.toNat ∧ c.toNat ≤ 57 := by simpa [pyIsDigit] using h
  have hne : ∀ x : Char, x.toNat < 48 → (c == x) = false := by
    intro x hx
    cases hbe : c == x with
    | false => rfl
    | true =>
      have hcx := congrArg Char.toNat (eq_of_beq hbe)
      exfalso
      omega
  simp only [pyIsSpace, hne ' ' (by decide), hne '\t' (by decide), hne '\n' (by decide),
    hne '\r' (by decide), hne (Char.ofNat 11) (by decide), hne (Char.ofNat 12) (by decide),
    Bool.or_self, Bool.or_false]

theorem digit_ne {c : Char} (h : pyIsDigit c = true) {x : Char}
    (hx : x.toNat < 48 ∨ 57 < x.toNat) : c ≠ x := by
  have h48 : 48 ≤ c.toNat ∧ c.toNat ≤ 57 := by simpa [pyIsDigit] using h
  intro he
  have hcx := congrArg Char.toNat he
  omega

theorem dropWhile_eq_self_of_all {p : Char → Bool} :
    ∀ xs : List Char, (∀ c ∈ xs, p c = false) → xs.dropWhile p = xs := by
  intro xs h
  cases xs with
  | nil => rfl
  | cons c cs => simp [List.dropWhile_cons, h c (List.mem_cons_self c cs)]

theorem pyStrip_digits {xs : List Char} (h : ∀ c ∈ xs, pyIsDigit c = true) :
    pyStrip xs = xs := by
  have hns : ∀ c ∈ xs, pyIsSpace c = false := fun c hc => digit_not_space (h c hc)
  unfold pyStrip
  rw [dropWhile_eq_self_of_all xs hns,
      dropWhile_eq_self_of_all xs.reverse (fun c hc => hns c (List.mem_reverse.mp hc)),
      List.reverse_reverse]

theorem pyInt_digits {xs : List Char} (hne : xs ≠ []) (h : ∀ c ∈ xs, pyIsDigit c = true) :
    pyInt xs = some ((valFold 0 xs : Nat) : Int) := by
  cases xs with
  | nil => exact absurd rfl hne
  | cons c cs =>
    have hc := h c (List.mem_cons_self c cs)
    have hminus : ¬(c = '-') := digit_ne hc (by decide)
    have hplus : ¬(c = '+') := digit_ne hc (by decide)
    simp only [pyInt, pyStrip_digits h, if_neg hminus, if_neg hplus,
      pyDigits_digits (List.cons_ne_nil c cs) h, Option.map_some]
    rfl

theorem intRepr_nonneg {x : Int} (h : 0 ≤ x) : intRepr x = natRepr x.toNat := by
  unfold intRepr
  rw [if_neg (by omega)]

theorem pad2_eq_nonneg {x : Int} (h : 0 ≤ x) :
    pad2 x = if (natRepr x.toNat).length < 2 then '0' :: natRepr x.toNat
             else natRepr x.toNat := by
  unfold pad2
  rw [intRepr_nonneg h]

theorem pad2_digits {x : Int} (h : 0 ≤ x) : ∀ c ∈ pad2 x, pyIsDigit c = true := by
  rw [pad2_eq_nonneg h]
  by_cases hl : (natRepr x.toNat).length < 2
  · rw [if_pos hl]
    intro c hc
    rcases List.mem_cons.mp hc with rfl | hc
    · decide
    · exact natRepr_all_digits _ c hc
  · rw [if_neg hl]
    exact natRepr_all_digits _

theorem pad2_ne_nil {x : Int} (h : 0 ≤ x) : pad2 x ≠ [] := by
  rw [pad2_eq_nonneg h]
  by_cases hl : (natRepr x.toNat).length < 2
  · simp [hl]
  · simp [hl, natRepr_ne_nil]

theorem valFold_pad2 {x : Int} (h : 0 ≤ x) : valFold 0 (pad2 x) = x.toNat := by
  rw [pad2_eq_nonneg h]
  by_cases hl : (natRepr x.toNat).length < 2
  · rw [if_pos hl, valFold_cons]
    have h0 : 10 * 0 + (('0' : Char).toNat - 48) = 0 := by decide
    rw [h0]
    exact valFold_natRepr_zero _
  · rw [if_neg hl]
    exact valFold_natRepr_zero _

theorem pyInt_pad2 {x : Int} (h : 0 ≤ x) : pyInt (pad2 x) = some x := by
  rw [pyInt_digits (pad2_ne_nil h) (pad2_digits h), valFold_pad2 h]
  rw [Int.toNat_of_nonneg h]

theorem splitOnChar_no_sep {sep : Char} :
    ∀ xs : List Char, (∀ c ∈ xs, c ≠ sep) → splitOnChar sep xs = [xs] := by
  intro xs h
  induction xs with
  | nil => rfl
  | cons c cs ih =>
    simp only [splitOnChar, if_neg (h c (List.mem_cons_self c cs))]
    rw [ih (fun x hx => h x (List.mem_cons_of_mem c hx))]

theorem splitOnChar_append {sep : Char} (ys : List Char) :
    ∀ xs : List Char, (∀ c ∈ xs, c ≠ sep) →
      splitOnChar sep (xs ++ sep :: ys) = xs :: splitOnChar sep ys := by
  intro xs h
  induction xs with
  | nil => simp [splitOnChar]
  | cons c cs ih =>
    simp only [List.cons_append, splitOnChar, List.append_eq,
      if_neg (h c (List.mem_cons_self c cs))]
    rw [ih (fun x hx => h x (List.mem_cons_of_mem c hx))]

/-- C10: for every timecode whose four fields are nonnegative integers, with no
upper bound on any field, formatting with `to_string` and parsing back with
`from_string` returns exactly the original timecode. -/
theorem c10_roundtrip (tc : SMPTETimecode)
    (hh : 0 ≤ tc.hours) (hm : 0 ≤ tc.minutes) (hs : 0 ≤ tc.seconds) (hf : 0 ≤ tc.frames) :
    from_string (to_string tc) = some tc := by
  have hcol : ∀ (x : Int), 0 ≤ x → ∀ c ∈ pad2 x, c ≠ ':' := by
    intro x hx c hc
    exact digit_ne (pad2_digits hx c hc) (by decide)
  unfold to_string from_string
  rw [splitOnChar_append _ _ (hcol _ hh), splitOnChar_append _ _ (hcol _ hm),
      splitOnChar_append _ _ (hcol _ hs), splitOnChar_no_sep _ (hcol _ hf)]
  simp only [pyInt_pad2 hh, pyInt_pad2 hm, pyInt_pad2 hs, pyInt_pad2 hf]

/-- Witness for C10 at the concrete timecode 0:0:0:123, whose frames field is
far beyond any framerate bound. -/
theorem c10_roundtrip_witness :
    from_string (to_string ⟨0, 0, 0, 123⟩) = some ⟨0, 0, 0, 123⟩ :=
  c10_roundtrip ⟨0, 0, 0, 123⟩ (by decide) (by decide) (by decide) (by decide)

theorem framerateMaxFrames_pos {fr : String} {maxF : Nat}
    (h : framerateMaxFrames fr = some maxF) : 1 ≤ maxF := by
  unfold framerateMaxFrames at h
  split_ifs at h
  all_goals first
    | (cases h; omega)
    | exact Option.noConfusion h

theorem increment_mk (max_frames h m s f : Int) :
    increment max_frames ⟨h, m, s, f⟩ =
      if f + 1 ≥ max_frames then
        if s + 1 ≥ 60 then
          if m + 1 ≥ 60 then
            if h + 1 ≥ 24 then ⟨0, 0, 0, 0⟩ else ⟨h + 1, 0, 0, 0⟩
          else ⟨h, m + 1, 0, 0⟩
        else ⟨h, m, s + 1, 0⟩
      else ⟨h, m, s, f + 1⟩ := rfl

theorem specSecondTick_mk (h m s f : Int) :
    specSecondTick ⟨h, m, s, f⟩ =
      if s + 1 ≥ 60 then
        if m + 1 ≥ 60 then
          if h + 1 ≥ 24 then ⟨0, 0, 0, 0⟩ else ⟨h + 1, 0, 0, 0⟩
        else ⟨h, m + 1, 0, 0⟩
      else ⟨h, m, s + 1, 0⟩ := rfl

theorem increment_iterate_lt (maxF : Nat) (h m s : Int) :
    ∀ k : Nat, k < maxF →
      (increment (maxF : Int))^[k] ⟨h, m, s, 0⟩ = ⟨h, m, s, (k : Int)⟩ := by
  intro k
  induction k with
  | zero =>
    intro _
    rfl
  | succ k ih =>
    intro hk
    rw [Function.iterate_succ_apply', ih (by omega), increment_mk]
    have hlt : ¬((k : Int) + 1 ≥ ((maxF : Nat) : Int)) := by
      push_cast
      omega
    rw [if_neg hlt]
    push_cast
    rfl

/-- C3: for every supported framerate and every in-range timecode with zero
frames, applying `increment` exactly `floor(framerate)` times with
`max_frames = floor(framerate)` (the value `get_max_frames` computes) yields
frames zero and the seconds field advanced by one, cascading sixty seconds to
a minute, sixty minutes to an hour, and twenty-four hours back to zero. -/
theorem c3_second_tick {fr : String} {maxF : Nat}
    (hfr : framerateMaxFrames fr = some maxF) (h m s : Int)
    (hh0 : 0 ≤ h) (hh : h ≤ 23) (hm0 : 0 ≤ m) (hm : m ≤ 59) (hs0 : 0 ≤ s) (hs : s ≤ 59) :
    (increment (maxF : Int))^[maxF] ⟨h, m, s, 0⟩ = specSecondTick ⟨h, m, s, 0⟩ := by
  have hpos := framerateMaxFrames_pos hfr
  obtain ⟨k, rfl⟩ : ∃ k, maxF = k + 1 := ⟨maxF - 1, by omega⟩
  rw [Function.iterate_succ_apply', increment_iterate_lt (k + 1) h m s k (by omega),
    increment_mk, specSecondTick_mk]
  have hge : (k : Int) + 1 ≥ (((k + 1 : Nat) : Nat) : Int) := by
    push_cast
    omega
  rw [if_pos hge]

/-- Witness for C3 at framerate 30 and the cascading start 01:02:59:00. -/
theorem c3_second_tick_witness :
    framerateMaxFrames "30" = some 30 ∧
      (increment ((30 : Nat) : Int))^[(30 : Nat)] ⟨1, 2, 59, 0⟩ = specSecondTick ⟨1, 2, 59, 0⟩ := by
  refine ⟨by decide, ?_⟩
  exact @c3_second_tick "30" 30 (by decide) 1 2 59 (by decide) (by decide) (by decide)
    (by decide) (by decide) (by decide)

/-- C4: for every supported framerate with its `get_max_frames` value, a single
`increment` applied to 23:59:59:(max_frames - 1) wraps to exactly 00:00:00:00. -/
theorem c4_wraparound {fr : String} {maxF : Nat}
    (hfr : framerateMaxFrames fr = some maxF) :
    increment (maxF : Int) ⟨23, 59, 59, (maxF : Int) - 1⟩ = ⟨0, 0, 0, 0⟩ := by
  rw [increment_mk]
  rw [if_pos (by omega), if_pos (by omega), if_pos (by omega), if_pos (by omega)]

/-- Witness for C4 at framerate 30: incrementing 23:59:59:29 gives 00:00:00:00. -/
theorem c4_wraparound_witness :
    framerateMaxFrames "30" = some 30 ∧
      increment ((30 : Nat) : Int) ⟨23, 59, 59, ((30 : Nat) : Int) - 1⟩ = ⟨0, 0, 0, 0⟩ :=
  ⟨by decide, @c4_wraparound "30" 30 (by decide)⟩

/-- C6 counterexample: the concrete string -1:0:0:0 parses successfully
(returning the negative first component verbatim) although it does not consist
of four nonnegative integer fields, refuting the claimed equivalence. -/
theorem c6_counterexample :
    (from_string ['-', '1', ':', '0', ':', '0', ':', '0']).isSome = true ∧
      fourNonnegIntFields ['-', '1', ':', '0', ':', '0', ':', '0'] = false ∧
      from_string ['-', '1', ':', '0', ':', '0', ':', '0'] = some ⟨-1, 0, 0, 0⟩ := by
  refine ⟨by decide, by decide, by decide⟩

/-- C6 (amended): parse succeeds exactly when the string consists of exactly
four colon-separated fields each accepted by Python's `int` (so optionally
signed, with optional surrounding whitespace and digit-group underscores, not
necessarily nonnegative), and on success returns the four converted components
verbatim with no validation against the 24/60/60/framerate bounds. -/
theorem c6_parse_characterization (s : List Char) :
    ((from_string s).isSome = true ↔
      (splitOnChar ':' s).length = 4 ∧ ∀ p ∈ splitOnChar ':' s, (pyInt p).isSome = true) ∧
    (∀ a b c d va vb vc vd, splitOnChar ':' s = [a, b, c, d] →
      pyInt a = some va → pyInt b = some vb → pyInt c = some vc → pyInt d = some vd →
      from_string s = some ⟨va, vb, vc, vd⟩) := by
  unfold from_string
  rcases hsp : splitOnChar ':' s with _ | ⟨a, _ | ⟨b, _ | ⟨c, _ | ⟨d, _ | ⟨e, rest⟩⟩⟩⟩⟩
  · refine ⟨by simp, ?_⟩
    intro a2 b2 c2 d2 va vb vc vd habcd hva hvb hvc hvd
    simp at habcd
  · refine ⟨by simp, ?_⟩
    intro a2 b2 c2 d2 va vb vc vd habcd hva hvb hvc hvd
    simp at habcd
  · refine ⟨by simp, ?_⟩
    intro a2 b2 c2 d2 va vb vc vd habcd hva hvb hvc hvd
    simp at habcd
  · refine ⟨by simp, ?_⟩
    intro a2 b2 c2 d2 va vb vc vd habcd hva hvb hvc hvd
    simp at habcd
  · constructor
    · cases hpa : pyInt a <;> cases hpb : pyInt b <;> cases hpc : pyInt c <;>
        cases hpd : pyInt d <;> simp [hpa, hpb, hpc, hpd]
    · intro a2 b2 c2 d2 va vb vc vd habcd hva hvb hvc hvd
      obtain ⟨rfl, rfl, rfl, rfl⟩ : a = a2 ∧ b = b2 ∧ c = c2 ∧ d = d2 := by
        simpa using habcd
      simp only [hva, hvb, hvc, hvd]
  · refine ⟨by simp, ?_⟩
    intro a2 b2 c2 d2 va vb vc vd habcd hva hvb hvc hvd
    simp at habcd

/-- Witness for C6 (amended) at the string 1:2:3:-4, which has four fields,
all `int`-convertible, one negative: parse succeeds with the components
verbatim. -/
theorem c6_parse_characterization_witness :
    from_string ['1', ':', '2', ':', '3', ':', '-', '4'] = some ⟨1, 2, 3, -4⟩ :=
  (c6_parse_characterization ['1', ':', '2', ':', '3', ':', '-', '4']).2
    ['1'] ['2'] ['3'] ['-', '4'] 1 2 3 (-4)
    (by decide) (by decide) (by decide) (by decide) (by decide)

/-- C5: create_session fails with the unsupported-framerate error when the
framerate string is outside the enumerated set, and, for a supported framerate,
with the malformed-timecode error when the initial timecode string does not
parse; in both failure cases the returned state is the input state unchanged
(no session created, session map and every client's session_id untouched). -/
theorem c5_create_session_failures (s : ServerState) (cid : Nat) (fr : String) (tcs : List Char) :
    (framerateMaxFrames fr = none →
      create_session cid fr tcs s = (.errUnsupportedFramerate, s)) ∧
    ((framerateMaxFrames fr).isSome = true → from_string tcs = none →
      create_session cid fr tcs s = (.errMalformedTimecode, s)) := by
  constructor
  · intro hfr
    simp [create_session, hfr]
  · intro hfr htc
    rcases Option.isSome_iff_exists.mp hfr with ⟨v, hv⟩
    simp [create_session, hv, htc]

/-- Witness for C5: framerate 25 is rejected with no state change, and with
framerate 30 the initial timecode string bad is rejected with no state change. -/
theorem c5_create_session_failures_witness :
    create_session 0 "25" ['0'] initialState = (.errUnsupportedFramerate, initialState) ∧
      create_session 0 "30" ['b', 'a', 'd'] initialState = (.errMalformedTimecode, initialState) :=
  ⟨(c5_create_session_failures initialState 0 "25" ['0']).1 (by decide),
   (c5_create_session_failures initialState 0 "30" ['b', 'a', 'd']).2 (by decide) (by decide)⟩

theorem lookupK_cons {α : Type} (k k2 : Nat) (v : α) (rest : List (Nat × α)) :
    lookupK k ((k2, v) :: rest) = if k2 = k then some v else lookupK k rest := rfl

theorem updateK_cons {α : Type} (k : Nat) (f : α → α) (k2 : Nat) (v : α)
    (rest : List (Nat × α)) :
    updateK k f ((k2, v) :: rest) =
      (if k2 = k then (k2, f v) else (k2, v)) :: updateK k f rest := by
  by_cases hk : k2 = k
  · simp [updateK, hk]
  · simp [updateK, hk]

theorem eraseK_cons {α : Type} (k k2 : Nat) (v : α) (rest : List (Nat × α)) :
    eraseK k ((k2, v) :: rest) =
      if k2 = k then eraseK k rest else (k2, v) :: eraseK k rest := by
  by_cases hk : k2 = k
  · simp [eraseK, List.filter_cons, hk]
  · simp [eraseK, List.filter_cons, hk, bne_iff_ne]

theorem lookupK_updateK_self {α : Type} (k : Nat) (f : α → α) :
    ∀ l : List (Nat × α), lookupK k (updateK k f l) = (lookupK k l).map f := by
  intro l
  induction l with
  | nil => rfl
  | cons p rest ih =>
    obtain ⟨k2, v⟩ := p
    rw [updateK_cons, lookupK_cons]
    by_cases hk : k2 = k
    · rw [if_pos hk, if_pos hk, lookupK_cons, if_pos hk]
      rfl
    · rw [if_neg hk, if_neg hk, lookupK_cons, if_neg hk]
      exact ih

theorem lookupK_updateK_ne {α : Type} {k2 k : Nat} (h : k2 ≠ k) (f : α → α) :
    ∀ l : List (Nat × α), lookupK k2 (updateK k f l) = lookupK k2 l := by
  intro l
  induction l with
  | nil => rfl
  | cons p rest ih =>
    obtain ⟨k3, v⟩ := p
    rw [updateK_cons, lookupK_cons]
    by_cases hk : k3 = k
    · rw [if_pos hk, lookupK_cons]
      have hne : ¬(k3 = k2) := by
        intro he
        exact h (by rw [← he, hk])
      rw [if_neg hne, if_neg hne]
      exact ih
    · rw [if_neg hk, lookupK_cons]
      by_cases hk2 : k3 = k2
      · rw [if_pos hk2, if_pos hk2]
      · rw [if_neg hk2, if_neg hk2]
        exact ih

theorem lookupK_eraseK_self {α : Type} (k : Nat) :
    ∀ l : List (Nat × α), lookupK k (eraseK k l) = none := by
  intro l
  induction l with
  | nil => rfl
  | cons p rest ih =>
    obtain ⟨k2, v⟩ := p
    rw [eraseK_cons]
    by_cases hk : k2 = k
    · rw [if_pos hk]
      exact ih
    · rw [if_neg hk, lookupK_cons, if_neg hk]
      exact ih

theorem lookupK_eraseK_ne {α : Type} {k2 k : Nat} (h : k2 ≠ k) :
    ∀ l : List (Nat × α), lookupK k2 (eraseK k l) = lookupK k2 l := by
  intro l
  induction l with
  | nil => rfl
  | cons p rest ih =>
    obtain ⟨k3, v⟩ := p
    rw [eraseK_cons, lookupK_cons]
    by_cases hk : k3 = k
    · rw [if_pos hk]
      have hne : ¬(k3 = k2) := by
        intro he
        exact h (by rw [← he, hk])
      rw [if_neg hne]
      exact ih
    · rw [if_neg hk, lookupK_cons]
      by_cases hk2 : k3 = k2
      · rw [if_pos hk2, if_pos hk2]
      · rw [if_neg hk2, if_neg hk2]
        exact ih

theorem lookupK_append_of_none {α : Type} {k : Nat} {l : List (Nat × α)}
    (h : lookupK k l = none) (m : List (Nat × α)) : lookupK k (l ++ m) = lookupK k m := by
  induction l with
  | nil => rfl
  | cons p rest ih =>
    obtain ⟨k2, v⟩ := p
    rw [lookupK_cons] at h
    rw [List.cons_append, lookupK_cons]
    by_cases hk : k2 = k
    · rw [if_pos hk] at h
      exact Option.noConfusion h
    · rw [if_neg hk] at h
      rw [if_neg hk]
      exact ih h

theorem lookupK_append_of_some {α : Type} {k : Nat} {l : List (Nat × α)} {v : α}
    (h : lookupK k l = some v) (m : List (Nat × α)) : lookupK k (l ++ m) = some v := by
  induction l with
  | nil => exact Option.noConfusion h
  | cons p rest ih =>
    obtain ⟨k2, w⟩ := p
    rw [lookupK_cons] at h
    rw [List.cons_append, lookupK_cons]
    by_cases hk : k2 = k
    · rw [if_pos hk] at h
      rw [if_pos hk]
      exact h
    · rw [if_neg hk] at h
      rw [if_neg hk]
      exact ih h

theorem lookupK_insertK_self {α : Type} (k : Nat) (v : α) (l : List (Nat × α)) :
    lookupK k (insertK k v l) = some v := by
  unfold insertK
  by_cases hs : (lookupK k l).isSome = true
  · rw [if_pos hs, lookupK_updateK_self]
    rcases Option.isSome_iff_exists.mp hs with ⟨w, hw⟩
    rw [hw]
    rfl
  · rw [if_neg hs]
    have hn : lookupK k l = none := by
      cases hl : lookupK k l
      · rfl
      · rw [hl] at hs
        exact absurd rfl hs
    rw [lookupK_append_of_none hn, lookupK_cons, if_pos rfl]

theorem lookupK_insertK_ne {α : Type} {k2 k : Nat} (h : k2 ≠ k) (v : α) (l : List (Nat × α)) :
    lookupK k2 (insertK k v l) = lookupK k2 l := by
  unfold insertK
  by_cases hs : (lookupK k l).isSome = true
  · rw [if_pos hs, lookupK_updateK_ne h]
  · rw [if_neg hs]
    cases hl : lookupK k2 l
    · rw [lookupK_append_of_none hl, lookupK_cons, if_neg (fun he => h he.symm)]
      rfl
    · exact lookupK_append_of_some hl _

theorem mem_addClient_iff (x cid : Nat) (l : List Nat) :
    x ∈ addClient cid l ↔ x ∈ l ∨ x = cid := by
  unfold addClient
  by_cases hm : cid ∈ l
  · rw [if_pos hm]
    constructor
    · exact Or.inl
    · rintro (hx | rfl)
      · exact hx
      · exact hm
  · rw [if_neg hm]
    simp

theorem addClient_ne_nil (cid : Nat) (l : List Nat) : addClient cid l ≠ [] := by
  unfold addClient
  by_cases hm : cid ∈ l
  · rw [if_pos hm]
    intro he
    rw [he] at hm
    exact List.not_mem_nil cid hm
  · rw [if_neg hm]
    simp

theorem mem_removeClient_iff (x cid : Nat) (l : List Nat) :
    x ∈ removeClient cid l ↔ x ∈ l ∧ x ≠ cid := by
  unfold removeClient
  rw [List.mem_filter]
  simp [bne_iff_ne]

theorem not_mem_removeClient_self (cid : Nat) (l : List Nat) :
    cid ∉ removeClient cid l := by
  rw [mem_removeClient_iff]
  rintro ⟨_, hne⟩
  exact hne rfl

theorem leave_session_absent {cid : Nat} {s : ServerState}
    (hc : lookupK cid s.clients = none) : leave_session cid s = s := by
  simp only [leave_session, hc]

theorem leave_session_free {cid : Nat} {s : ServerState} {c : ClientConnection}
    (hc : lookupK cid s.clients = some c) (hn : c.session_id = none) :
    leave_session cid s = s := by
  simp only [leave_session, hc, hn]

theorem leave_session_clients_eq {cid : Nat} {s : ServerState} {c : ClientConnection} {sid : Nat}
    (hc : lookupK cid s.clients = some c) (hsid : c.session_id = some sid) :
    (leave_session cid s).clients =
      updateK cid (fun c2 => { c2 with session_id := none }) s.clients := by
  simp only [leave_session, hc, hsid]
  cases hse : lookupK sid s.sessions with
  | none => rfl
  | some sess =>
    dsimp only
    split_ifs <;> rfl

theorem leave_session_sessions_absent {cid : Nat} {s : ServerState} {c : ClientConnection}
    {sid : Nat} (hc : lookupK cid s.clients = some c) (hsid : c.session_id = some sid)
    (hse : lookupK sid s.sessions = none) :
    (leave_session cid s).sessions = s.sessions := by
  simp only [leave_session, hc, hsid, hse]

theorem leave_session_sessions_main {cid : Nat} {s : ServerState} {c : ClientConnection}
    {sid : Nat} {sess : TimecodeSession}
    (hc : lookupK cid s.clients = some c) (hsid : c.session_id = some sid)
    (hse : lookupK sid s.sessions = some sess) :
    (leave_session cid s).sessions =
      if removeClient cid sess.clients = [] then eraseK sid s.sessions
      else updateK sid (fun se => { se with clients := removeClient cid se.clients }) s.sessions := by
  simp only [leave_session, hc, hsid, hse]
  by_cases hemp : removeClient cid sess.clients = []
  · rw [if_pos hemp, if_pos hemp]
  · rw [if_neg hemp, if_neg hemp]

theorem leave_session_lookup_clients (cid : Nat) (s : ServerState) (x : Nat) :
    lookupK x (leave_session cid s).clients =
      if x = cid then (lookupK cid s.clients).map (fun c => { c with session_id := none })
      else lookupK x s.clients := by
  cases hc : lookupK cid s.clients with
  | none =>
    rw [leave_session_absent hc]
    by_cases hx : x = cid
    · rw [if_pos hx, hx, hc]
      rfl
    · rw [if_neg hx]
  | some c =>
    cases hsid : c.session_id with
    | none =>
      rw [leave_session_free hc hsid]
      by_cases hx : x = cid
      · rw [if_pos hx, hx, hc]
        obtain ⟨csid, ccon, cfail, cout⟩ := c
        replace hsid : csid = none := hsid
        subst hsid
        rfl
      · rw [if_neg hx]
    | some sid =>
      rw [leave_session_clients_eq hc hsid]
      by_cases hx : x = cid
      · rw [if_pos hx, hx, lookupK_updateK_self, hc]
      · rw [if_neg hx, lookupK_updateK_ne hx]

theorem leave_session_nextId (cid : Nat) (s : ServerState) :
    (leave_session cid s).nextId = s.nextId := by
  cases hc : lookupK cid s.clients with
  | none => rw [leave_session_absent hc]
  | some c =>
    cases hsid : c.session_id with
    | none => rw [leave_session_free hc hsid]
    | some sid =>
      simp only [leave_session, hc, hsid]
      cases hse : lookupK sid s.sessions with
      | none => rfl
      | some sess =>
        dsimp only
        split_ifs <;> rfl

theorem create_session_success_state {fr : String} {tcs : List Char} {tc : SMPTETimecode}
    (cid : Nat) (s : ServerState)
    (hfr : (framerateMaxFrames fr).isNone = false) (htc : from_string tcs = some tc) :
    (create_session cid fr tcs s).2.sessions =
        insertK s.nextId ⟨fr, tc, false, [cid], cid, false⟩ s.sessions ∧
    (create_session cid fr tcs s).2.nextId = s.nextId + 1 ∧
    (create_session cid fr tcs s).2.clients =
      (if (lookupK cid s.clients).isSome = true then
        updateK cid (fun c => { c with session_id := some s.nextId }) s.clients
      else s.clients) := by
  simp only [create_session, hfr, Bool.false_eq_true, if_false, htc]
  refine ⟨?_, ?_, ?_⟩ <;> (dsimp only; split_ifs <;> rfl)

theorem join_session_notfound {cid sid : Nat} {s : ServerState}
    (hg : lookupK sid s.sessions = none) :
    join_session cid sid s = (.errSessionNotFound, s) := by
  simp only [join_session, hg, Option.isNone_none, if_true]

theorem join_session_vanished {cid sid : Nat} {s : ServerState} {sess0 : TimecodeSession}
    (hg : lookupK sid s.sessions = some sess0)
    (hse : lookupK sid (leave_session cid s).sessions = none) :
    join_session cid sid s = (.internalError, leave_session cid s) := by
  simp only [join_session, hg, Option.isNone_some, Bool.false_eq_true, if_false, hse]

theorem join_session_found {cid sid : Nat} {s : ServerState} {sess0 sess : TimecodeSession}
    (hg : lookupK sid s.sessions = some sess0)
    (hse : lookupK sid (leave_session cid s).sessions = some sess) :
    (join_session cid sid s).1 = .sessionJoined sid sess.framerate sess.timecode sess.running ∧
    (join_session cid sid s).2.sessions =
      updateK sid (fun se => { se with clients := addClient cid se.clients })
        (leave_session cid s).sessions ∧
    (join_session cid sid s).2.nextId = (leave_session cid s).nextId ∧
    (join_session cid sid s).2.clients =
      (if (lookupK cid (leave_session cid s).clients).isSome = true then
        updateK cid (fun c => { c with session_id := some sid }) (leave_session cid s).clients
      else (leave_session cid s).clients) := by
  refine ⟨?_, ?_, ?_, ?_⟩ <;>
      simp only [join_session, hg, Option.isNone_some, Bool.false_eq_true, if_false, hse] <;>
    first
      | rfl
      | (split_ifs <;> rfl)

theorem start_timecode_frame (cid : Nat) (s : ServerState) :
    (start_timecode cid s).2.clients = s.clients ∧
    (start_timecode cid s).2.nextId = s.nextId ∧
    ((start_timecode cid s).2.sessions = s.sessions ∨
      ∃ sid f, (∀ se : TimecodeSession, (f se).clients = se.clients) ∧
        (start_timecode cid s).2.sessions = updateK sid f s.sessions) := by
  cases hc : lookupK cid s.clients with
  | none =>
    refine ⟨?_, ?_, Or.inl ?_⟩ <;> simp only [start_timecode, hc]
  | some c =>
    cases hsid : c.session_id with
    | none =>
      refine ⟨?_, ?_, Or.inl ?_⟩ <;> simp only [start_timecode, hc, hsid]
    | some sid =>
      cases hse : lookupK sid s.sessions with
      | none =>
        refine ⟨?_, ?_, Or.inl ?_⟩ <;> simp only [start_timecode, hc, hsid, hse]
      | some sess =>
        by_cases hrp : sess.running = true
        · refine ⟨?_, ?_, Or.inl ?_⟩ <;>
            simp only [start_timecode, hc, hsid, hse, if_pos hrp]
        · have hs2 : (start_timecode cid s).2 = { s with sessions := updateK sid (fun se => if se.running || se.task then se else { se with running := true, task := true }) s.sessions } := by
            simp only [start_timecode, hc, hsid, hse, if_neg hrp]
          rw [hs2]
          refine ⟨rfl, rfl, Or.inr ⟨sid, fun se => if se.running || se.task then se else { se with running := true, task := true }, ?_, rfl⟩⟩
          intro se
          show (if se.running || se.task then se
                else { se with running := true, task := true }).clients = se.clients
          split_ifs <;> rfl

theorem stop_timecode_frame (cid : Nat) (s : ServerState) :
    (stop_timecode cid s).2.clients = s.clients ∧
    (stop_timecode cid s).2.nextId = s.nextId ∧
    ((stop_timecode cid s).2.sessions = s.sessions ∨
      ∃ sid f, (∀ se : TimecodeSession, (f se).clients = se.clients) ∧
        (stop_timecode cid s).2.sessions = updateK sid f s.sessions) := by
  cases hc : lookupK cid s.clients with
  | none =>
    refine ⟨?_, ?_, Or.inl ?_⟩ <;> simp only [stop_timecode, hc]
  | some c =>
    cases hsid : c.session_id with
    | none =>
      refine ⟨?_, ?_, Or.inl ?_⟩ <;> simp only [stop_timecode, hc, hsid]
    | some sid =>
      cases hse : lookupK sid s.sessions with
      | none =>
        refine ⟨?_, ?_, Or.inl ?_⟩ <;> simp only [stop_timecode, hc, hsid, hse]
      | some sess =>
        by_cases hrp : (!sess.running) = true
        · refine ⟨?_, ?_, Or.inl ?_⟩ <;>
            simp only [stop_timecode, hc, hsid, hse, if_pos hrp]
        · have hs2 : (stop_timecode cid s).2 = { s with sessions := updateK sid (fun se => if !se.running || !se.task then se else { se with running := false, task := false }) s.sessions } := by
            simp only [stop_timecode, hc, hsid, hse, if_neg hrp]
          rw [hs2]
          refine ⟨rfl, rfl, Or.inr ⟨sid, fun se => if !se.running || !se.task then se else { se with running := false, task := false }, ?_, rfl⟩⟩
          intro se
          show (if !se.running || !se.task then se
                else { se with running := false, task := false }).clients = se.clients
          split_ifs <;> rfl

theorem reset_timecode_frame (cid : Nat) (tcs : List Char) (s : ServerState) :
    (reset_timecode cid tcs s).2.clients = s.clients ∧
    (reset_timecode cid tcs s).2.nextId = s.nextId ∧
    ((reset_timecode cid tcs s).2.sessions = s.sessions ∨
      ∃ sid f, (∀ se : TimecodeSession, (f se).clients = se.clients) ∧
        (reset_timecode cid tcs s).2.sessions = updateK sid f s.sessions) := by
  cases hc : lookupK cid s.clients with
  | none =>
    refine ⟨?_, ?_, Or.inl ?_⟩ <;> simp only [reset_timecode, hc]
  | some c =>
    cases hsid : c.session_id with
    | none =>
      refine ⟨?_, ?_, Or.inl ?_⟩ <;> simp only [reset_timecode, hc, hsid]
    | some sid =>
      cases hse : lookupK sid s.sessions with
      | none =>
        refine ⟨?_, ?_, Or.inl ?_⟩ <;> simp only [reset_timecode, hc, hsid, hse]
      | some sess =>
        cases htc : from_string tcs with
        | none =>
          refine ⟨?_, ?_, Or.inl ?_⟩ <;> simp only [reset_timecode, hc, hsid, hse, htc]
        | some tc =>
          have hs2 : (reset_timecode cid tcs s).2 = { s with sessions := updateK sid (fun se => { se with timecode := tc }) s.sessions } := by
            simp only [reset_timecode, hc, hsid, hse, htc]
          rw [hs2]
          exact ⟨rfl, rfl, Or.inr ⟨sid, fun se => { se with timecode := tc }, fun se => rfl, rfl⟩⟩

theorem handle_client_disconnect_frame (cid : Nat) (s : ServerState) :
    (handle_client_disconnect cid s).sessions = (leave_session cid s).sessions ∧
    (handle_client_disconnect cid s).nextId = (leave_session cid s).nextId := by
  refine ⟨?_, ?_⟩ <;>
    cases hc : lookupK cid (leave_session cid s).clients <;>
      simp only [handle_client_disconnect, hc]

theorem sessionsNonempty_updateK {s : ServerState} (hinv : sessionsNonempty s) (k : Nat)
    {f : TimecodeSession → TimecodeSession} (hf : ∀ se, (f se).clients = se.clients)
    {s2 : ServerState} (hs2 : s2.sessions = updateK k f s.sessions) :
    sessionsNonempty s2 := by
  intro sid sess h
  rw [hs2] at h
  by_cases hk : sid = k
  · subst hk
    rw [lookupK_updateK_self] at h
    cases hl : lookupK sid s.sessions with
    | none =>
      rw [hl] at h
      exact Option.noConfusion h
    | some se0 =>
      rw [hl] at h
      replace h : some (f se0) = some sess := h
      rw [← Option.some.inj h, hf se0]
      exact hinv sid se0 hl
  · rw [lookupK_updateK_ne hk] at h
    exact hinv sid sess h

theorem leave_session_nonempty {cid : Nat} {s : ServerState} (hinv : sessionsNonempty s) :
    sessionsNonempty (leave_session cid s) := by
  cases hc : lookupK cid s.clients with
  | none =>
    rw [leave_session_absent hc]
    exact hinv
  | some c =>
    cases hsid : c.session_id with
    | none =>
      rw [leave_session_free hc hsid]
      exact hinv
    | some sid =>
      cases hse : lookupK sid s.sessions with
      | none =>
        intro sid2 sess2 h
        rw [leave_session_sessions_absent hc hsid hse] at h
        exact hinv sid2 sess2 h
      | some sess =>
        intro sid2 sess2 h
        rw [leave_session_sessions_main hc hsid hse] at h
        by_cases hemp : removeClient cid sess.clients = []
        · rw [if_pos hemp] at h
          by_cases hk : sid2 = sid
          · subst hk
            rw [lookupK_eraseK_self] at h
            exact Option.noConfusion h
          · rw [lookupK_eraseK_ne hk] at h
            exact hinv sid2 sess2 h
        · rw [if_neg hemp] at h
          by_cases hk : sid2 = sid
          · subst hk
            rw [lookupK_updateK_self, hse] at h
            replace h : some { sess with clients := removeClient cid sess.clients } = some sess2 := h
            rw [← Option.some.inj h]
            exact hemp
          · rw [lookupK_updateK_ne hk] at h
            exact hinv sid2 sess2 h

theorem step_preserves_nonempty {s1 s2 : ServerState} (hst : Step s1 s2)
    (hinv : sessionsNonempty s1) : sessionsNonempty s2 := by
  cases hst with
  | connect cid fl s1 h =>
    intro sid sess hl
    exact hinv sid sess hl
  | create cid fr tcs s1 h =>
    by_cases hfr : (framerateMaxFrames fr).isNone = true
    · have he : (create_session cid fr tcs s1).2 = s1 := by
        simp [create_session, hfr]
      rw [he]
      exact hinv
    · have hfr2 : (framerateMaxFrames fr).isNone = false := by
        cases hb : (framerateMaxFrames fr).isNone
        · rfl
        · exact absurd hb hfr
      cases htc : from_string tcs with
      | none =>
        have he : (create_session cid fr tcs s1).2 = s1 := by
          simp [create_session, hfr2, Bool.false_eq_true, htc]
        rw [he]
        exact hinv
      | some tc =>
        obtain ⟨hsess, hnext, hcl⟩ := create_session_success_state cid s1 hfr2 htc
        intro sid sess hl
        rw [hsess] at hl
        by_cases hk : sid = s1.nextId
        · subst hk
          rw [lookupK_insertK_self] at hl
          rw [← Option.some.inj hl]
          simp
        · rw [lookupK_insertK_ne hk] at hl
          exact hinv sid sess hl
  | join cid sid s1 h =>
    cases hg : lookupK sid s1.sessions with
    | none =>
      rw [join_session_notfound hg]
      exact hinv
    | some sess0 =>
      have hinv1 : sessionsNonempty (leave_session cid s1) := leave_session_nonempty hinv
      cases hse : lookupK sid (leave_session cid s1).sessions with
      | none =>
        rw [join_session_vanished hg hse]
        exact hinv1
      | some sess =>
        obtain ⟨_, hsess, _, _⟩ := join_session_found hg hse
        intro sid2 sess2 hl
        rw [hsess] at hl
        by_cases hk : sid2 = sid
        · subst hk
          rw [lookupK_updateK_self, hse] at hl
          replace hl : some { sess with clients := addClient cid sess.clients } = some sess2 := hl
          rw [← Option.some.inj hl]
          exact addClient_ne_nil cid sess.clients
        · rw [lookupK_updateK_ne hk] at hl
          exact hinv1 sid2 sess2 hl
  | leave cid s1 h => exact leave_session_nonempty hinv
  | start cid s1 h =>
    obtain ⟨_, _, hor⟩ := start_timecode_frame cid s1
    rcases hor with he | ⟨sid, f, hf, he⟩
    · intro sid2 sess2 hl
      rw [he] at hl
      exact hinv sid2 sess2 hl
    · exact sessionsNonempty_updateK hinv sid hf he
  | stop cid s1 h =>
    obtain ⟨_, _, hor⟩ := stop_timecode_frame cid s1
    rcases hor with he | ⟨sid, f, hf, he⟩
    · intro sid2 sess2 hl
      rw [he] at hl
      exact hinv sid2 sess2 hl
    · exact sessionsNonempty_updateK hinv sid hf he
  | reset cid tcs s1 h =>
    obtain ⟨_, _, hor⟩ := reset_timecode_frame cid tcs s1
    rcases hor with he | ⟨sid, f, hf, he⟩
    · intro sid2 sess2 hl
      rw [he] at hl
      exact hinv sid2 sess2 hl
    · exact sessionsNonempty_updateK hinv sid hf he
  | disconnect cid s1 h =>
    obtain ⟨hsess, _⟩ := handle_client_disconnect_frame cid s1
    have hinv1 : sessionsNonempty (leave_session cid s1) := leave_session_nonempty hinv
    intro sid2 sess2 hl
    rw [hsess] at hl
    exact hinv1 sid2 sess2 hl

theorem reachable_nonempty {s : ServerState} (h : Reachable s) : sessionsNonempty s := by
  induction h with
  | init =>
    intro sid sess hl
    exact Option.noConfusion hl
  | step h1 h2 ih => exact step_preserves_nonempty h2 ih

/-- C8: for a registered client in a registered session, start_timecode on an
already-running session reports the already-running error and returns the state
completely unchanged (same timecode, same running flag, same task handle, so no
second tick driver is created), and stop_timecode on a stopped session reports
the not-running error with the state unchanged; both are total functions, never
a crash. -/
theorem c8_start_stop_errors (s : ServerState) (cid sid : Nat) (c : ClientConnection)
    (sess : TimecodeSession) (hc : lookupK cid s.clients = some c)
    (hsid : c.session_id = some sid) (hse : lookupK sid s.sessions = some sess) :
    (sess.running = true → start_timecode cid s = (.errAlreadyRunning, s)) ∧
    (sess.running = false → stop_timecode cid s = (.errNotRunning, s)) := by
  constructor
  · intro hr
    simp only [start_timecode, hc, hsid, hse, if_pos hr]
  · intro hr
    have hr2 : (!sess.running) = true := by
      rw [hr]
      rfl
    simp only [stop_timecode, hc, hsid, hse, if_pos hr2]

/-- Witness for C8: a one-session state with client 7; starting while running
yields the already-running error, stopping while stopped yields the
not-running error, both with the state unchanged. -/
theorem c8_start_stop_errors_witness :
    start_timecode 7 ⟨[(0, ⟨"30", ⟨0, 0, 0, 0⟩, true, [7], 7, true⟩)],
        [(7, ⟨some 0, true, false, []⟩)], 1⟩ =
      (.errAlreadyRunning, ⟨[(0, ⟨"30", ⟨0, 0, 0, 0⟩, true, [7], 7, true⟩)],
        [(7, ⟨some 0, true, false, []⟩)], 1⟩) ∧
    stop_timecode 7 ⟨[(0, ⟨"30", ⟨0, 0, 0, 0⟩, false, [7], 7, false⟩)],
        [(7, ⟨some 0, true, false, []⟩)], 1⟩ =
      (.errNotRunning, ⟨[(0, ⟨"30", ⟨0, 0, 0, 0⟩, false, [7], 7, false⟩)],
        [(7, ⟨some 0, true, false, []⟩)], 1⟩) :=
  ⟨(c8_start_stop_errors ⟨[(0, ⟨"30", ⟨0, 0, 0, 0⟩, true, [7], 7, true⟩)],
        [(7, ⟨some 0, true, false, []⟩)], 1⟩ 7 0 ⟨some 0, true, false, []⟩
      ⟨"30", ⟨0, 0, 0, 0⟩, true, [7], 7, true⟩ (by decide) (by decide) (by decide)).1 (by decide),
   (c8_start_stop_errors ⟨[(0, ⟨"30", ⟨0, 0, 0, 0⟩, false, [7], 7, false⟩)],
        [(7, ⟨some 0, true, false, []⟩)], 1⟩ 7 0 ⟨some 0, true, false, []⟩
      ⟨"30", ⟨0, 0, 0, 0⟩, false, [7], 7, false⟩ (by decide) (by decide) (by decide)).2 (by decide)⟩

/-- C7: for a member of a registered session, leave_session removes the
requester from that session's subscriber set; whenever the removal empties the
set, the session is deleted from the registry in the same operation (its clock
stopped on the way out) and a subsequent join_session with the same id returns
the session-not-found error; consequently no session registered in any
reachable state has an empty subscriber set. -/
theorem c7_leave_session_cleanup :
    (∀ (s : ServerState) (cid sid : Nat) (c : ClientConnection) (sess : TimecodeSession),
      lookupK cid s.clients = some c → c.session_id = some sid →
      lookupK sid s.sessions = some sess →
      (∀ sess2, lookupK sid (leave_session cid s).sessions = some sess2 →
        cid ∉ sess2.clients) ∧
      (removeClient cid sess.clients = [] →
        lookupK sid (leave_session cid s).sessions = none ∧
        ∀ cid2, join_session cid2 sid (leave_session cid s) =
          (.errSessionNotFound, leave_session cid s))) ∧
    (∀ s : ServerState, Reachable s →
      ∀ sid sess, lookupK sid s.sessions = some sess → sess.clients ≠ []) := by
  constructor
  · intro s cid sid c sess hc hsid hse
    constructor
    · intro sess2 hl
      rw [leave_session_sessions_main hc hsid hse] at hl
      by_cases hemp : removeClient cid sess.clients = []
      · rw [if_pos hemp, lookupK_eraseK_self] at hl
        exact Option.noConfusion hl
      · rw [if_neg hemp, lookupK_updateK_self, hse] at hl
        replace hl : some { sess with clients := removeClient cid sess.clients } = some sess2 := hl
        rw [← Option.some.inj hl]
        exact not_mem_removeClient_self cid sess.clients
    · intro hemp
      have hnone : lookupK sid (leave_session cid s).sessions = none := by
        rw [leave_session_sessions_main hc hsid hse, if_pos hemp, lookupK_eraseK_self]
      exact ⟨hnone, fun cid2 => join_session_notfound hnone⟩
  · intro s hr sid sess hl
    exact reachable_nonempty hr sid sess hl

/-- Witness for C7: client 7 is the sole member of session 0; after it leaves,
session 0 is gone and rejoining reports session-not-found — and a state built
by connect then create is reachable with its one session nonempty. -/
theorem c7_leave_session_cleanup_witness :
    (lookupK 0 (leave_session 7 ⟨[(0, ⟨"30", ⟨0, 0, 0, 0⟩, false, [7], 7, false⟩)],
        [(7, ⟨some 0, true, false, []⟩)], 1⟩).sessions = none ∧
      ∀ cid2, join_session cid2 0 (leave_session 7 ⟨[(0, ⟨"30", ⟨0, 0, 0, 0⟩, false, [7], 7, false⟩)],
        [(7, ⟨some 0, true, false, []⟩)], 1⟩) =
        (.errSessionNotFound, leave_session 7 ⟨[(0, ⟨"30", ⟨0, 0, 0, 0⟩, false, [7], 7, false⟩)],
        [(7, ⟨some 0, true, false, []⟩)], 1⟩)) ∧
    (⟨"30", ⟨0, 0, 0, 0⟩, false, [0], 0, false⟩ : TimecodeSession).clients ≠ [] :=
  ⟨(c7_leave_session_cleanup.1 ⟨[(0, ⟨"30", ⟨0, 0, 0, 0⟩, false, [7], 7, false⟩)],
        [(7, ⟨some 0, true, false, []⟩)], 1⟩ 7 0 ⟨some 0, true, false, []⟩
        ⟨"30", ⟨0, 0, 0, 0⟩, false, [7], 7, false⟩ (by decide) (by decide) (by decide)).2 (by decide),
   c7_leave_session_cleanup.2
     (create_session 0 "30" ['0', ':', '0', ':', '0', ':', '0'] (connectClient 0 false initialState)).2
     (Reachable.step (Reachable.step Reachable.init (Step.connect 0 false initialState (by decide)))
       (Step.create 0 "30" ['0', ':', '0', ':', '0', ':', '0'] (connectClient 0 false initialState)
         (by decide)))
     0 ⟨"30", ⟨0, 0, 0, 0⟩, false, [0], 0, false⟩ (by decide)⟩

/-- C2 counterexample: client 0 connects and creates session 0, becoming its
sole member; re-joining its own session triggers the implicit leave, which
deletes the session, and the subsequent `self.sessions[session_id]` lookup
raises (internal error) instead of returning the session info — and the session
is gone from the state. -/
theorem c2_counterexample :
    (join_session 0 0 (create_session 0 "30" ['0', ':', '0', ':', '0', ':', '0']
        (connectClient 0 false initialState)).2).1 = .internalError ∧
    (join_session 0 0 (create_session 0 "30" ['0', ':', '0', ':', '0', ':', '0']
        (connectClient 0 false initialState)).2).1 ≠
      .sessionJoined 0 "30" ⟨0, 0, 0, 0⟩ false ∧
    lookupK 0 (join_session 0 0 (create_session 0 "30" ['0', ':', '0', ':', '0', ':', '0']
        (connectClient 0 false initialState)).2).2.sessions = none := by
  refine ⟨by decide, by decide, by decide⟩

/-- C2 (amended): join_session returns the session-not-found error exactly when
the session id is unregistered; otherwise it first performs the implicit leave.
If the requester was the sole member of the target session the implicit leave
has deleted it and the operation fails with an internal error (the Python
KeyError path), leaving the post-leave state; in every other case — including a
non-sole member rejoining its own session — the requester is added to the
session's subscriber set, its session_id is set, and the reply carries the
session's framerate, current timecode and running flag. -/
theorem c2_join_session_cases (s : ServerState) (cid sid : Nat) :
    (lookupK sid s.sessions = none → join_session cid sid s = (.errSessionNotFound, s)) ∧
    (∀ sess, lookupK sid s.sessions = some sess →
      ((∃ c, lookupK cid s.clients = some c ∧ c.session_id = some sid ∧
          removeClient cid sess.clients = []) →
        join_session cid sid s = (.internalError, leave_session cid s) ∧
        lookupK sid (leave_session cid s).sessions = none) ∧
      ((¬ ∃ c, lookupK cid s.clients = some c ∧ c.session_id = some sid ∧
          removeClient cid sess.clients = []) →
        (join_session cid sid s).1 =
          .sessionJoined sid sess.framerate sess.timecode sess.running ∧
        (∃ sess2, lookupK sid (join_session cid sid s).2.sessions = some sess2 ∧
          cid ∈ sess2.clients) ∧
        (∀ c, lookupK cid s.clients = some c →
          ∃ c2, lookupK cid (join_session cid sid s).2.clients = some c2 ∧
            c2.session_id = some sid))) := by
  refine ⟨fun hg => join_session_notfound hg, ?_⟩
  intro sess hg
  constructor
  · rintro ⟨c, hc, hsid, hemp⟩
    have hnone : lookupK sid (leave_session cid s).sessions = none := by
      rw [leave_session_sessions_main hc hsid hg, if_pos hemp, lookupK_eraseK_self]
    exact ⟨join_session_vanished hg hnone, hnone⟩
  · intro hnot
    have hse1 : ∃ sess1, lookupK sid (leave_session cid s).sessions = some sess1 ∧
        sess1.framerate = sess.framerate ∧ sess1.timecode = sess.timecode ∧
        sess1.running = sess.running := by
      cases hc : lookupK cid s.clients with
      | none =>
        rw [leave_session_absent hc]
        exact ⟨sess, hg, rfl, rfl, rfl⟩
      | some c =>
        cases hsid2 : c.session_id with
        | none =>
          rw [leave_session_free hc hsid2]
          exact ⟨sess, hg, rfl, rfl, rfl⟩
        | some sid2 =>
          by_cases hksid : sid2 = sid
          · subst hksid
            have hemp2 : ¬removeClient cid sess.clients = [] := by
              intro he
              exact hnot ⟨c, hc, hsid2, he⟩
            rw [leave_session_sessions_main hc hsid2 hg, if_neg hemp2,
              lookupK_updateK_self, hg]
            exact ⟨{ sess with clients := removeClient cid sess.clients }, rfl, rfl, rfl, rfl⟩
          · have hne : sid ≠ sid2 := fun he => hksid he.symm
            cases hse2 : lookupK sid2 s.sessions with
            | none =>
              rw [leave_session_sessions_absent hc hsid2 hse2]
              exact ⟨sess, hg, rfl, rfl, rfl⟩
            | some sessB =>
              rw [leave_session_sessions_main hc hsid2 hse2]
              by_cases hemp2 : removeClient cid sessB.clients = []
              · rw [if_pos hemp2, lookupK_eraseK_ne hne]
                exact ⟨sess, hg, rfl, rfl, rfl⟩
              · rw [if_neg hemp2, lookupK_updateK_ne hne]
                exact ⟨sess, hg, rfl, rfl, rfl⟩
    obtain ⟨sess1, hse1, hf1, ht1, hr1⟩ := hse1
    obtain ⟨hresp, hsess, hnext, hcl⟩ := join_session_found hg hse1
    refine ⟨?_, ?_, ?_⟩
    · rw [hresp, hf1, ht1, hr1]
    · refine ⟨{ sess1 with clients := addClient cid sess1.clients }, ?_, ?_⟩
      · rw [hsess, lookupK_updateK_self, hse1]
        rfl
      · exact (mem_addClient_iff cid cid sess1.clients).mpr (Or.inr rfl)
    · intro c hc
      have hlc : lookupK cid (leave_session cid s).clients =
          some { c with session_id := none } := by
        rw [leave_session_lookup_clients cid s cid, if_pos rfl, hc]
        rfl
      have hsome : (lookupK cid (leave_session cid s).clients).isSome = true := by
        rw [hlc]
        rfl
      rw [hcl, if_pos hsome, lookupK_updateK_self, hlc]
      exact ⟨_, rfl, rfl⟩

/-- Witness for C2 (amended): a two-member session 0 with clients 7 and 8;
client 7 rejoins its own session, is still a member afterwards, its session_id
still points at session 0, and the reply carries the session's data. -/
theorem c2_join_session_cases_witness :
    (join_session 7 0 ⟨[(0, ⟨"30", ⟨0, 0, 0, 0⟩, false, [7, 8], 7, false⟩)],
        [(7, ⟨some 0, true, false, []⟩), (8, ⟨some 0, true, false, []⟩)], 1⟩).1 =
      .sessionJoined 0 "30" ⟨0, 0, 0, 0⟩ false ∧
    (∃ sess2, lookupK 0 (join_session 7 0 ⟨[(0, ⟨"30", ⟨0, 0, 0, 0⟩, false, [7, 8], 7, false⟩)],
        [(7, ⟨some 0, true, false, []⟩), (8, ⟨some 0, true, false, []⟩)], 1⟩).2.sessions =
        some sess2 ∧ 7 ∈ sess2.clients) ∧
    (∀ c, lookupK 7 ([(7, (⟨some 0, true, false, []⟩ : ClientConnection)),
        (8, ⟨some 0, true, false, []⟩)] : List (Nat × ClientConnection)) = some c →
      ∃ c2, lookupK 7 (join_session 7 0 ⟨[(0, ⟨"30", ⟨0, 0, 0, 0⟩, false, [7, 8], 7, false⟩)],
        [(7, ⟨some 0, true, false, []⟩), (8, ⟨some 0, true, false, []⟩)], 1⟩).2.clients =
        some c2 ∧ c2.session_id = some 0) :=
  ((c2_join_session_cases ⟨[(0, ⟨"30", ⟨0, 0, 0, 0⟩, false, [7, 8], 7, false⟩)],
      [(7, ⟨some 0, true, false, []⟩), (8, ⟨some 0, true, false, []⟩)], 1⟩ 7 0).2
    ⟨"30", ⟨0, 0, 0, 0⟩, false, [7, 8], 7, false⟩ (by decide)).2 (by decide)

theorem handle_client_disconnect_lookup_ne {b x : Nat} (hne : x ≠ b) (s : ServerState) :
    lookupK x (handle_client_disconnect b s).clients = lookupK x s.clients := by
  cases hc : lookupK b (leave_session b s).clients with
  | none =>
    simp only [handle_client_disconnect, hc]
    rw [leave_session_lookup_clients b s x, if_neg hne]
  | some c =>
    simp only [handle_client_disconnect, hc]
    rw [lookupK_eraseK_ne hne, leave_session_lookup_clients b s x, if_neg hne]

theorem handle_client_disconnect_lookup_self (b : Nat) (s : ServerState) :
    lookupK b (handle_client_disconnect b s).clients = none := by
  cases hc : lookupK b (leave_session b s).clients with
  | none => simp only [handle_client_disconnect, hc]
  | some c =>
    simp only [handle_client_disconnect, hc]
    exact lookupK_eraseK_self b _

theorem send_to_client_lookup_ne {b x : Nat} (hne : x ≠ b) (msg : String) (s : ServerState) :
    lookupK x (send_to_client b msg s).clients = lookupK x s.clients := by
  cases hb : lookupK b s.clients with
  | none => simp only [send_to_client, hb]
  | some cb =>
    simp only [send_to_client, hb]
    by_cases hcon : cb.connected = true
    · rw [if_pos hcon]
      by_cases hfail : cb.failing = true
      · rw [if_pos hfail]
        exact handle_client_disconnect_lookup_ne hne s
      · rw [if_neg hfail]
        show lookupK x (updateK b (fun c2 => { c2 with outbox := c2.outbox ++ [msg] }) s.clients) =
          lookupK x s.clients
        exact lookupK_updateK_ne hne _ _
    · rw [if_neg hcon]

theorem send_to_client_self_success {b : Nat} {s : ServerState} {cb : ClientConnection}
    (hb : lookupK b s.clients = some cb) (hcon : cb.connected = true)
    (hfail : cb.failing = false) (msg : String) :
    lookupK b (send_to_client b msg s).clients =
      some { cb with outbox := cb.outbox ++ [msg] } := by
  simp only [send_to_client, hb, if_pos hcon]
  rw [if_neg (by simp [hfail]), lookupK_updateK_self, hb]
  rfl

theorem send_to_client_self_fail {b : Nat} {s : ServerState} {cb : ClientConnection}
    (hb : lookupK b s.clients = some cb) (hcon : cb.connected = true)
    (hfail : cb.failing = true) (msg : String) :
    lookupK b (send_to_client b msg s).clients = none := by
  simp only [send_to_client, hb, if_pos hcon, if_pos hfail]
  exact handle_client_disconnect_lookup_self b s

theorem deliverAll_cons (b : Nat) (bs : List Nat) (msg : String) (s : ServerState) :
    deliverAll (b :: bs) msg s = deliverAll bs msg (send_to_client b msg s) := rfl

theorem deliverAll_lookup_not_mem {x : Nat} (msg : String) :
    ∀ (l : List Nat) (s : ServerState), x ∉ l →
      lookupK x (deliverAll l msg s).clients = lookupK x s.clients := by
  intro l
  induction l with
  | nil =>
    intro s _
    rfl
  | cons b bs ih =>
    intro s hx
    have hxb : x ≠ b := fun he => hx (he ▸ List.mem_cons_self b bs)
    have hxs : x ∉ bs := fun hm => hx (List.mem_cons_of_mem b hm)
    rw [deliverAll_cons, ih (send_to_client b msg s) hxs, send_to_client_lookup_ne hxb]

theorem deliverAll_effect (msg : String) :
    ∀ (l : List Nat) (s : ServerState), l.Nodup →
      ∀ cid c, cid ∈ l → lookupK cid s.clients = some c → c.connected = true →
        ((c.failing = false →
          lookupK cid (deliverAll l msg s).clients =
            some { c with outbox := c.outbox ++ [msg] }) ∧
         (c.failing = true → lookupK cid (deliverAll l msg s).clients = none)) := by
  intro l
  induction l with
  | nil =>
    intro s _ cid c hm
    exact absurd hm (List.not_mem_nil cid)
  | cons b bs ih =>
    intro s hnd cid c hm hc hcon
    rw [List.nodup_cons] at hnd
    obtain ⟨hbnotin, hndbs⟩ := hnd
    rw [deliverAll_cons]
    rcases List.mem_cons.mp hm with rfl | hmem
    · constructor
      · intro hfail
        rw [deliverAll_lookup_not_mem msg bs _ hbnotin,
          send_to_client_self_success hc hcon hfail msg]
      · intro hfail
        rw [deliverAll_lookup_not_mem msg bs _ hbnotin,
          send_to_client_self_fail hc hcon hfail msg]
    · have hne : cid ≠ b := fun he => hbnotin (he ▸ hmem)
      have hc2 : lookupK cid (send_to_client b msg s).clients = some c := by
        rw [send_to_client_lookup_ne hne, hc]
      exact ih (send_to_client b msg s) hndbs cid c hmem hc2 hcon

/-- C9: broadcast_to_session delivers to the snapshot of the session's
subscriber set taken at call time: every connected snapshot member whose
transport does not fail ends with the message appended to its outbox, no
matter which other members fail; a member whose write fails is handled by that
client's disconnect-and-leave path alone (its connection record is removed);
and broadcast always returns a state, never an error, so a delivery failure is
not propagated to its caller. -/
theorem c9_broadcast_isolation (s : ServerState) (sid : Nat) (sess : TimecodeSession)
    (msg : String) (hse : lookupK sid s.sessions = some sess) (hnd : sess.clients.Nodup) :
    ∀ cid c, cid ∈ sess.clients → lookupK cid s.clients = some c → c.connected = true →
      ((c.failing = false →
        lookupK cid (broadcast_to_session sid msg s).clients =
          some { c with outbox := c.outbox ++ [msg] }) ∧
       (c.failing = true →
        lookupK cid (broadcast_to_session sid msg s).clients = none)) := by
  intro cid c hm hc hcon
  have hb : broadcast_to_session sid msg s = deliverAll sess.clients msg s := by
    simp only [broadcast_to_session, hse]
  rw [hb]
  exact deliverAll_effect msg sess.clients s hnd cid c hm hc hcon

/-- Witness for C9: session 5 has members 0 and 1; the write to client 0
fails, yet client 1 still receives the message, and client 0 is disconnected. -/
theorem c9_broadcast_isolation_witness :
    lookupK 1 (broadcast_to_session 5 "tick" ⟨[(5, ⟨"30", ⟨0, 0, 0, 0⟩, true, [0, 1], 0, true⟩)],
        [(0, ⟨some 5, true, true, []⟩), (1, ⟨some 5, true, false, []⟩)], 6⟩).clients =
      some ⟨some 5, true, false, ["tick"]⟩ ∧
    lookupK 0 (broadcast_to_session 5 "tick" ⟨[(5, ⟨"30", ⟨0, 0, 0, 0⟩, true, [0, 1], 0, true⟩)],
        [(0, ⟨some 5, true, true, []⟩), (1, ⟨some 5, true, false, []⟩)], 6⟩).clients = none :=
  ⟨(c9_broadcast_isolation ⟨[(5, ⟨"30", ⟨0, 0, 0, 0⟩, true, [0, 1], 0, true⟩)],
        [(0, ⟨some 5, true, true, []⟩), (1, ⟨some 5, true, false, []⟩)], 6⟩ 5
      ⟨"30", ⟨0, 0, 0, 0⟩, true, [0, 1], 0, true⟩ "tick" (by decide) (by decide) 1
      ⟨some 5, true, false, []⟩ (by decide) (by decide) (by decide)).1 (by decide),
   (c9_broadcast_isolation ⟨[(5, ⟨"30", ⟨0, 0, 0, 0⟩, true, [0, 1], 0, true⟩)],
        [(0, ⟨some 5, true, true, []⟩), (1, ⟨some 5, true, false, []⟩)], 6⟩ 5
      ⟨"30", ⟨0, 0, 0, 0⟩, true, [0, 1], 0, true⟩ "tick" (by decide) (by decide) 0
      ⟨some 5, true, true, []⟩ (by decide) (by decide) (by decide)).2 (by decide)⟩

/-- C1 counterexample: client 0 connects and creates a session twice in a row;
because create_session (unlike join_session) performs no implicit leave, client
0 then appears in the subscriber sets of the two distinct registered sessions
0 and 1 simultaneously. -/
theorem c1_counterexample :
    memberOf 0 0 (create_session 0 "30" ['0', ':', '0', ':', '0', ':', '0']
        (create_session 0 "30" ['0', ':', '0', ':', '0', ':', '0']
          (connectClient 0 false initialState)).2).2 = true ∧
    memberOf 0 1 (create_session 0 "30" ['0', ':', '0', ':', '0', ':', '0']
        (create_session 0 "30" ['0', ':', '0', ':', '0', ':', '0']
          (connectClient 0 false initialState)).2).2 = true ∧
    (0 : Nat) ≠ 1 := by
  refine ⟨by decide, by decide, by decide⟩

theorem backref_member_unique {s : ServerState} (hb : memberBackref s) {cid sid sid2 : Nat}
    {c : ClientConnection} {sess2 : TimecodeSession}
    (hc : lookupK cid s.clients = some c) (hsid : c.session_id = some sid)
    (hl : lookupK sid2 s.sessions = some sess2) (hm : cid ∈ sess2.clients) : sid2 = sid := by
  obtain ⟨c2, hc2, hs2⟩ := hb sid2 sess2 hl cid hm
  rw [hc] at hc2
  rw [← Option.some.inj hc2] at hs2
  rw [hsid] at hs2
  exact (Option.some.inj hs2).symm

theorem leave_session_backref {cid : Nat} {s : ServerState} (hb : memberBackref s) :
    memberBackref (leave_session cid s) := by
  cases hc : lookupK cid s.clients with
  | none =>
    rw [leave_session_absent hc]
    exact hb
  | some c =>
    cases hsid : c.session_id with
    | none =>
      rw [leave_session_free hc hsid]
      exact hb
    | some sid =>
      intro sid2 sess2 hl cid2 hm2
      have hclients := leave_session_lookup_clients cid s cid2
      by_cases hcc : cid2 = cid
      · subst hcc
        exfalso
        cases hse : lookupK sid s.sessions with
        | none =>
          rw [leave_session_sessions_absent hc hsid hse] at hl
          have heq := backref_member_unique hb hc hsid hl hm2
          rw [heq, hse] at hl
          exact Option.noConfusion hl
        | some sess =>
          rw [leave_session_sessions_main hc hsid hse] at hl
          by_cases hemp : removeClient cid2 sess.clients = []
          · rw [if_pos hemp] at hl
            by_cases hk : sid2 = sid
            · rw [hk, lookupK_eraseK_self] at hl
              exact Option.noConfusion hl
            · rw [lookupK_eraseK_ne hk] at hl
              exact hk (backref_member_unique hb hc hsid hl hm2)
          · rw [if_neg hemp] at hl
            by_cases hk : sid2 = sid
            · subst hk
              rw [lookupK_updateK_self, hse] at hl
              replace hl : some { sess with clients := removeClient cid2 sess.clients } =
                some sess2 := hl
              rw [← Option.some.inj hl] at hm2
              exact not_mem_removeClient_self cid2 sess.clients hm2
            · rw [lookupK_updateK_ne hk] at hl
              exact hk (backref_member_unique hb hc hsid hl hm2)
      · have hrec : lookupK cid2 (leave_session cid s).clients = lookupK cid2 s.clients := by
          rw [hclients, if_neg hcc]
        cases hse : lookupK sid s.sessions with
        | none =>
          rw [leave_session_sessions_absent hc hsid hse] at hl
          obtain ⟨c2, hc2, hs2⟩ := hb sid2 sess2 hl cid2 hm2
          exact ⟨c2, by rw [hrec]; exact hc2, hs2⟩
        | some sess =>
          rw [leave_session_sessions_main hc hsid hse] at hl
          by_cases hemp : removeClient cid sess.clients = []
          · rw [if_pos hemp] at hl
            by_cases hk : sid2 = sid
            · rw [hk, lookupK_eraseK_self] at hl
              exact Option.noConfusion hl
            · rw [lookupK_eraseK_ne hk] at hl
              obtain ⟨c2, hc2, hs2⟩ := hb sid2 sess2 hl cid2 hm2
              exact ⟨c2, by rw [hrec]; exact hc2, hs2⟩
          · rw [if_neg hemp] at hl
            by_cases hk : sid2 = sid
            · subst hk
              rw [lookupK_updateK_self, hse] at hl
              replace hl : some { sess with clients := removeClient cid sess.clients } =
                some sess2 := hl
              rw [← Option.some.inj hl] at hm2
              have hmem := ((mem_removeClient_iff cid2 cid sess.clients).mp hm2).1
              obtain ⟨c2, hc2, hs2⟩ := hb sid2 sess hse cid2 hmem
              refine ⟨c2, by rw [hrec]; exact hc2, hs2⟩
            · rw [lookupK_updateK_ne hk] at hl
              obtain ⟨c2, hc2, hs2⟩ := hb sid2 sess2 hl cid2 hm2
              exact ⟨c2, by rw [hrec]; exact hc2, hs2⟩

theorem leave_session_fresh {cid : Nat} {s : ServerState} (hf : sessionsFresh s) :
    sessionsFresh (leave_session cid s) := by
  intro sid2 h2
  rw [leave_session_nextId] at h2
  cases hc : lookupK cid s.clients with
  | none =>
    rw [leave_session_absent hc]
    exact hf sid2 h2
  | some c =>
    cases hsid : c.session_id with
    | none =>
      rw [leave_session_free hc hsid]
      exact hf sid2 h2
    | some sid =>
      cases hse : lookupK sid s.sessions with
      | none =>
        rw [leave_session_sessions_absent hc hsid hse]
        exact hf sid2 h2
      | some sess =>
        rw [leave_session_sessions_main hc hsid hse]
        by_cases hemp : removeClient cid sess.clients = []
        · rw [if_pos hemp]
          by_cases hk : sid2 = sid
          · rw [hk, lookupK_eraseK_self]
          · rw [lookupK_eraseK_ne hk]
            exact hf sid2 h2
        · rw [if_neg hemp]
          by_cases hk : sid2 = sid
          · exfalso
            rw [hk] at h2
            rw [hf sid h2] at hse
            exact Option.noConfusion hse
          · rw [lookupK_updateK_ne hk]
            exact hf sid2 h2

theorem backref_updateK {s : ServerState} (hb : memberBackref s) (k : Nat)
    {f : TimecodeSession → TimecodeSession} (hfc : ∀ se, (f se).clients = se.clients)
    {s2 : ServerState} (hsess : s2.sessions = updateK k f s.sessions)
    (hcl : s2.clients = s.clients) : memberBackref s2 := by
  intro sid sess hl cid hm
  rw [hsess] at hl
  rw [hcl]
  by_cases hk : sid = k
  · subst hk
    rw [lookupK_updateK_self] at hl
    cases hl0 : lookupK sid s.sessions with
    | none =>
      rw [hl0] at hl
      exact Option.noConfusion hl
    | some se0 =>
      rw [hl0] at hl
      replace hl : some (f se0) = some sess := hl
      rw [← Option.some.inj hl, hfc se0] at hm
      exact hb sid se0 hl0 cid hm
  · rw [lookupK_updateK_ne hk] at hl
    exact hb sid sess hl cid hm

theorem fresh_updateK {s : ServerState} (hf : sessionsFresh s) (k : Nat)
    {f : TimecodeSession → TimecodeSession} {s2 : ServerState}
    (hsess : s2.sessions = updateK k f s.sessions) (hnext : s2.nextId = s.nextId) :
    sessionsFresh s2 := by
  intro sid h2
  rw [hnext] at h2
  rw [hsess]
  by_cases hk : sid = k
  · subst hk
    rw [lookupK_updateK_self, hf sid h2]
    rfl
  · rw [lookupK_updateK_ne hk]
    exact hf sid h2

theorem stepA_preserves_inv {s1 s2 : ServerState} (hst : StepA s1 s2)
    (hb : memberBackref s1) (hf : sessionsFresh s1) :
    memberBackref s2 ∧ sessionsFresh s2 := by
  cases hst with
  | connect cid fl s1 h =>
    constructor
    · intro sid sess hl cid2 hm
      obtain ⟨c2, hc2, hs2⟩ := hb sid sess hl cid2 hm
      have hne : cid2 ≠ cid := by
        intro he
        rw [he, h] at hc2
        exact Option.noConfusion hc2
      refine ⟨c2, ?_, hs2⟩
      show lookupK cid2 (insertK cid ⟨none, true, fl, []⟩ s1.clients) = some c2
      rw [lookupK_insertK_ne hne]
      exact hc2
    · intro sid h2
      exact hf sid h2
  | create cid fr tcs s1 c hcreg hfree =>
    by_cases hfr : (framerateMaxFrames fr).isNone = true
    · have he : (create_session cid fr tcs s1).2 = s1 := by
        simp [create_session, hfr]
      rw [he]
      exact ⟨hb, hf⟩
    · have hfr2 : (framerateMaxFrames fr).isNone = false := by
        cases hbo : (framerateMaxFrames fr).isNone
        · rfl
        · exact absurd hbo hfr
      cases htc : from_string tcs with
      | none =>
        have he : (create_session cid fr tcs s1).2 = s1 := by
          simp [create_session, hfr2, Bool.false_eq_true, htc]
        rw [he]
        exact ⟨hb, hf⟩
      | some tc =>
        obtain ⟨hsess, hnext, hcl⟩ := create_session_success_state cid s1 hfr2 htc
        have hsome : (lookupK cid s1.clients).isSome = true := by
          rw [hcreg]
          rfl
        constructor
        · intro sid sess hl cid2 hm
          rw [hsess] at hl
          rw [hcl, if_pos hsome]
          by_cases hk : sid = s1.nextId
          · subst hk
            rw [lookupK_insertK_self] at hl
            rw [← Option.some.inj hl] at hm
            have hcc : cid2 = cid := by simpa using hm
            subst hcc
            rw [lookupK_updateK_self, hcreg]
            exact ⟨_, rfl, rfl⟩
          · rw [lookupK_insertK_ne hk] at hl
            obtain ⟨c2, hc2, hs2⟩ := hb sid sess hl cid2 hm
            by_cases hcc : cid2 = cid
            · subst hcc
              rw [hcreg] at hc2
              rw [← Option.some.inj hc2] at hs2
              rw [hfree] at hs2
              exact Option.noConfusion hs2
            · rw [lookupK_updateK_ne hcc]
              exact ⟨c2, hc2, hs2⟩
        · intro sid h2
          rw [hnext] at h2
          rw [hsess]
          have hne : sid ≠ s1.nextId := by omega
          rw [lookupK_insertK_ne hne]
          exact hf sid (by omega)
  | join cid sid s1 h =>
    cases hg : lookupK sid s1.sessions with
    | none =>
      rw [join_session_notfound hg]
      exact ⟨hb, hf⟩
    | some sess0 =>
      have hbL : memberBackref (leave_session cid s1) := leave_session_backref hb
      have hfL : sessionsFresh (leave_session cid s1) := leave_session_fresh hf
      cases hse : lookupK sid (leave_session cid s1).sessions with
      | none =>
        rw [join_session_vanished hg hse]
        exact ⟨hbL, hfL⟩
      | some sess =>
        obtain ⟨_, hsess, hnext, hcl⟩ := join_session_found hg hse
        obtain ⟨c1, hc1⟩ := Option.isSome_iff_exists.mp h
        have hlc : lookupK cid (leave_session cid s1).clients =
            some { c1 with session_id := none } := by
          rw [leave_session_lookup_clients cid s1 cid, if_pos rfl, hc1]
          rfl
        have hsome : (lookupK cid (leave_session cid s1).clients).isSome = true := by
          rw [hlc]
          rfl
        constructor
        · intro sid2 sess2 hl cid2 hm
          rw [hsess] at hl
          rw [hcl, if_pos hsome]
          by_cases hk : sid2 = sid
          · subst hk
            rw [lookupK_updateK_self, hse] at hl
            replace hl : some { sess with clients := addClient cid sess.clients } =
              some sess2 := hl
            rw [← Option.some.inj hl] at hm
            rcases (mem_addClient_iff cid2 cid sess.clients).mp hm with hmem | hcc
            · by_cases hcc2 : cid2 = cid
              · subst hcc2
                rw [lookupK_updateK_self, hlc]
                exact ⟨_, rfl, rfl⟩
              · rw [lookupK_updateK_ne hcc2]
                exact hbL sid2 sess hse cid2 hmem
            · subst hcc
              rw [lookupK_updateK_self, hlc]
              exact ⟨_, rfl, rfl⟩
          · rw [lookupK_updateK_ne hk] at hl
            obtain ⟨c2, hc2, hs2⟩ := hbL sid2 sess2 hl cid2 hm
            by_cases hcc : cid2 = cid
            · subst hcc
              rw [hlc] at hc2
              rw [← Option.some.inj hc2] at hs2
              exact Option.noConfusion hs2
            · rw [lookupK_updateK_ne hcc]
              exact ⟨c2, hc2, hs2⟩
        · intro sid2 h2
          rw [hnext, leave_session_nextId] at h2
          rw [hsess]
          by_cases hk : sid2 = sid
          · subst hk
            rw [lookupK_updateK_self, hfL sid2 (by rw [leave_session_nextId]; exact h2)]
            rfl
          · rw [lookupK_updateK_ne hk]
            exact hfL sid2 (by rw [leave_session_nextId]; exact h2)
  | leave cid s1 h => exact ⟨leave_session_backref hb, leave_session_fresh hf⟩
  | start cid s1 h =>
    obtain ⟨hcl, hnx, hor⟩ := start_timecode_frame cid s1
    rcases hor with he | ⟨k, f, hfc, he⟩
    · constructor
      · intro sid sess hl cid2 hm
        rw [he] at hl
        rw [hcl]
        exact hb sid sess hl cid2 hm
      · intro sid h2
        rw [hnx] at h2
        rw [he]
        exact hf sid h2
    · exact ⟨backref_updateK hb k hfc he hcl, fresh_updateK hf k he hnx⟩
  | stop cid s1 h =>
    obtain ⟨hcl, hnx, hor⟩ := stop_timecode_frame cid s1
    rcases hor with he | ⟨k, f, hfc, he⟩
    · constructor
      · intro sid sess hl cid2 hm
        rw [he] at hl
        rw [hcl]
        exact hb sid sess hl cid2 hm
      · intro sid h2
        rw [hnx] at h2
        rw [he]
        exact hf sid h2
    · exact ⟨backref_updateK hb k hfc he hcl, fresh_updateK hf k he hnx⟩
  | reset cid tcs s1 h =>
    obtain ⟨hcl, hnx, hor⟩ := reset_timecode_frame cid tcs s1
    rcases hor with he | ⟨k, f, hfc, he⟩
    · constructor
      · intro sid sess hl cid2 hm
        rw [he] at hl
        rw [hcl]
        exact hb sid sess hl cid2 hm
      · intro sid h2
        rw [hnx] at h2
        rw [he]
        exact hf sid h2
    · exact ⟨backref_updateK hb k hfc he hcl, fresh_updateK hf k he hnx⟩
  | disconnect cid s1 h =>
    obtain ⟨hsess, hnx⟩ := handle_client_disconnect_frame cid s1
    have hbL : memberBackref (leave_session cid s1) := leave_session_backref hb
    have hfL : sessionsFresh (leave_session cid s1) := leave_session_fresh hf
    constructor
    · intro sid sess hl cid2 hm
      rw [hsess] at hl
      obtain ⟨c2, hc2, hs2⟩ := hbL sid sess hl cid2 hm
      by_cases hcc : cid2 = cid
      · subst hcc
        exfalso
        rw [leave_session_lookup_clients cid2 s1 cid2, if_pos rfl] at hc2
        cases hc0 : lookupK cid2 s1.clients with
        | none =>
          rw [hc0] at hc2
          exact Option.noConfusion hc2
        | some c1 =>
          rw [hc0] at hc2
          replace hc2 : some { c1 with session_id := none } = some c2 := hc2
          rw [← Option.some.inj hc2] at hs2
          exact Option.noConfusion hs2
      · refine ⟨c2, ?_, hs2⟩
        rw [handle_client_disconnect_lookup_ne hcc]
        rw [leave_session_lookup_clients cid s1 cid2, if_neg hcc] at hc2
        exact hc2
    · intro sid h2
      rw [hnx, leave_session_nextId] at h2
      rw [hsess]
      exact hfL sid (by rw [leave_session_nextId]; exact h2)

theorem reachableA_inv {s : ServerState} (h : ReachableA s) :
    memberBackref s ∧ sessionsFresh s := by
  induction h with
  | init =>
    constructor
    · intro sid sess hl
      exact Option.noConfusion hl
    · intro sid h2
      rfl
  | step h1 h2 ih => exact stepA_preserves_inv h2 ih.1 ih.2

/-- C1 (amended): in every state reachable through connects, disconnects and
the six handlers, with create_session only ever invoked by a registered client
whose session_id is unset (the restriction the counterexample forces — the
unrestricted claim fails because create_session performs no implicit leave), a
client id appears in the subscriber set of at most one registered session. -/
theorem c1_at_most_one_session {s : ServerState} (hr : ReachableA s)
    (cid sid1 sid2 : Nat) (se1 se2 : TimecodeSession)
    (h1 : lookupK sid1 s.sessions = some se1) (h2 : lookupK sid2 s.sessions = some se2)
    (hm1 : cid ∈ se1.clients) (hm2 : cid ∈ se2.clients) : sid1 = sid2 := by
  obtain ⟨hb, _⟩ := reachableA_inv hr
  obtain ⟨c1, hc1, hs1⟩ := hb sid1 se1 h1 cid hm1
  obtain ⟨c2, hc2, hs2⟩ := hb sid2 se2 h2 cid hm2
  rw [hc1] at hc2
  rw [← Option.some.inj hc2] at hs2
  rw [hs1] at hs2
  exact Option.some.inj hs2

/-- Witness for C1 (amended) on the reachable state where client 0 has
connected and created session 0 while free: the hypotheses hold concretely and
the two session ids coincide. -/
theorem c1_at_most_one_session_witness :
    lookupK 0 ((create_session 0 "30" ['0', ':', '0', ':', '0', ':', '0']
        (connectClient 0 false initialState)).2).sessions =
      some ⟨"30", ⟨0, 0, 0, 0⟩, false, [0], 0, false⟩ ∧ (0 : Nat) = 0 :=
  ⟨by decide,
   c1_at_most_one_session
     (ReachableA.step (ReachableA.step ReachableA.init
         (StepA.connect 0 false initialState (by decide)))
       (StepA.create 0 "30" ['0', ':', '0', ':', '0', ':', '0']
         (connectClient 0 false initialState) ⟨none, true, false, []⟩ (by decide) rfl))
     0 0 0 ⟨"30", ⟨0, 0, 0, 0⟩, false, [0], 0, false⟩
     ⟨"30", ⟨0, 0, 0, 0⟩, false, [0], 0, false⟩
     (by decide) (by decide) (by decide) (by decide)⟩
